import Mathlib

/-!
Verification of the Signal-style cryptographic core of the document-ai-companion
repository: the Double Ratchet (src/lib/crypto/double-ratchet.ts), the X3DH
agreement (src/lib/crypto/x3dh.ts), the safety-number derivation
(src/lib/crypto/safety-number.ts) and the protocol orchestrator
(src/lib/crypto/signal-protocol.ts).

Modelling conventions (a shallow embedding):

* Cryptographic byte strings are modelled symbolically by the inductive type
  `B` (a Dolev-Yao style term algebra): HKDF, HMAC, slicing, concatenation,
  AES-GCM ciphertexts and ECDSA signatures are free constructors, so two byte
  strings are equal exactly when they are built by the same derivation. This
  captures the functional behaviour of the primitives (determinism, and the
  round-trip/authentication property of AES-GCM) while abstracting from the
  actual bit-level functions.
* A P-256 key pair is identified by its secret scalar (a `Nat`); the exported
  JWK public key of a pair is modelled by the same scalar (point serialization
  is injective, so this loses nothing). ECDH `performDH priv pub` is modelled
  as a free function of the *product* of the two scalars, which is exactly the
  algebraic fact (`a·(b·G) = b·(a·G)` has x-coordinate determined by `a*b`)
  that makes X3DH and the ratchet agree on both sides.
* Base64 encoding (`ab2b64`/`b642ab`) is a bijection on byte strings and is
  modelled as the identity on `B`.
* JavaScript `Map<string, ArrayBuffer>` keyed by the string
  `"${jwk.x}:${jwk.y}:${n}"` is modelled as an association list keyed by the
  pair (public-key scalar, n), with JS `Map` semantics (`set` replaces the
  value of an existing key in place, otherwise appends; `delete` removes the
  entry; insertion order is preserved).
* The TypeScript methods mutate `this` in place and may throw; a method that
  can throw after mutating is modelled as a function returning
  `State × Except Error Result` where the returned state is the state of the
  JS object after the call, also when the call threw.
-/

namespace SignalSpec

/-- Symbolic byte strings: a free term algebra over the WebCrypto primitives
used by src/lib/crypto/utils.ts. `dhOut k` stands for the 32-byte ECDH output
`deriveBits` for a private/public pair whose secret scalars multiply to `k`;
`hkdf ikm salt info len` for `hkdf(ikm, salt, info, len)`; `slice b i j` for
`b.slice(i, j)`; `hmac k d` for `hmacSHA256(k, d)`; `cat a b` for buffer
concatenation; `aesCt key nonce pt` for the AES-256-GCM ciphertext of the
UTF-8 plaintext `pt` under the raw key bytes `key` and IV `nonce`; and
`sig s d` for the ECDSA signature of data `d` under signing scalar `s`. -/
inductive B : Type where
  | raw : List Nat → B
  | dhOut : Nat → B
  | hkdf : B → B → String → Nat → B
  | slice : B → Nat → Nat → B
  | hmac : B → B → B
  | cat : B → B → B
  | aesCt : B → B → String → B
  | sig : Nat → B → B
  deriving DecidableEq, Repr

/-- Errors thrown by the DoubleRatchet class (the `throw new Error(...)` sites
of double-ratchet.ts) plus the AES-GCM authentication failure raised by
`crypto.subtle.decrypt`. -/
inductive RatchetError : Type where
  | sendingChainNotInitialized
  | dhKeyPairNotInitialized
  | receivingChainNotInitialized
  | tooManySkipped
  | authFail
  deriving DecidableEq, Repr

deriving instance DecidableEq for Except

/-- Model of `const MAX_SKIP = 256` of double-ratchet.ts. -/
def MAX_SKIP : Nat := 256

/-- Model of `ab2b64` of utils.ts: base64 is a bijection on byte strings, modelled as
the identity embedding. -/
def ab2b64 (b : B) : B := b

/-- Model of `b642ab` of utils.ts, the inverse of `ab2b64`. -/
def b642ab (b : B) : B := b

/-- Model of `performDH(privateKey, publicKey)` of utils.ts (P-256 ECDH `deriveBits`):
the output depends exactly on the product of the two secret scalars. -/
def performDH (priv pub : Nat) : B := B.dhOut (priv * pub)

/-- Result type of `kdfRK` in double-ratchet.ts. -/
structure KdfRKResult : Type where
  rootKey : B
  chainKey : B
  deriving DecidableEq, Repr

/-- Model of `kdfRK(rk, dhOut)` of double-ratchet.ts: derive 64 bytes via
`hkdf(dhOut, rk, 'signal-root-chain', 64)` and split 32/32. -/
def kdfRK (rk dhO : B) : KdfRKResult :=
  let derived := B.hkdf dhO rk ("signal-root-chain") 64
  { rootKey := B.slice derived 0 32, chainKey := B.slice derived 32 64 }

/-- Result type of `kdfCK` in double-ratchet.ts. -/
structure KdfCKResult : Type where
  chainKey : B
  messageKey : B
  deriving DecidableEq, Repr

/-- Model of `kdfCK(ck)` of double-ratchet.ts: `mk = HMAC(ck, 0x01)`,
`ck' = HMAC(ck, 0x02)`. -/
def kdfCK (ck : B) : KdfCKResult :=
  { chainKey := B.hmac ck (B.raw [2]), messageKey := B.hmac ck (B.raw [1]) }

/-- Model of `aesEncrypt(messageKey, plaintext)` of utils.ts: derive 44 bytes from the
message key via HKDF with a 32-zero-byte salt and label 'signal-msg-encrypt';
bytes 0..32 are the AES-256-GCM key, bytes 32..44 the IV. -/
def aesEncrypt (messageKey : B) (plaintext : String) : B :=
  let derived := B.hkdf messageKey (B.raw (List.replicate 32 0)) ("signal-msg-encrypt") 44
  B.aesCt (B.slice derived 0 32) (B.slice derived 32 44) plaintext

/-- Model of `aesDecrypt(messageKey, ciphertext)` of utils.ts: AES-GCM decryption
succeeds exactly on a ciphertext produced under the same derived key and IV,
and fails with an authentication error otherwise. -/
def aesDecrypt (messageKey : B) (ciphertext : B) : Except RatchetError String :=
  let derived := B.hkdf messageKey (B.raw (List.replicate 32 0)) ("signal-msg-encrypt") 44
  match ciphertext with
  | B.aesCt k n pt =>
      if k = B.slice derived 0 32 ∧ n = B.slice derived 32 44 then .ok pt
      else .error .authFail
  | _ => .error .authFail

theorem aesDecrypt_aesEncrypt (mk : B) (pt : String) :
    aesDecrypt mk (aesEncrypt mk pt) = .ok pt := by
  simp [aesDecrypt, aesEncrypt]

/-! ### Association-list model of the JS `Map` used for `MKSKIPPED`

The cache key `"${jwk.x}:${jwk.y}:${n}"` is modelled by the pair
(public-key scalar, n). -/

/-- One skipped-message-key cache entry. -/
abbrev SkipEntry : Type := (Nat × Nat) × B

/-- Model of `Map.get` / `Map.has`: find the value stored at a key. -/
def alookup (k : Nat × Nat) : List SkipEntry → Option B
  | [] => none
  | e :: es => if e.1 = k then some e.2 else alookup k es

/-- Model of `Map.set`: replace the value stored at an existing key in place, otherwise
append a new entry at the end (JS `Map` insertion-order semantics). -/
def aset (k : Nat × Nat) (v : B) : List SkipEntry → List SkipEntry
  | [] => [(k, v)]
  | e :: es => if e.1 = k then (k, v) :: es else e :: aset k v es

/-- Model of `Map.delete`: remove the entry stored at a key. -/
def aerase (k : Nat × Nat) : List SkipEntry → List SkipEntry
  | [] => []
  | e :: es => if e.1 = k then es else e :: aerase k es

theorem alookup_aset (k k' : Nat × Nat) (v : B) (m : List SkipEntry) :
    alookup k' (aset k v m) = if k' = k then some v else alookup k' m := by
  induction m with
  | nil =>
      by_cases h : k' = k
      · subst h; simp [aset, alookup]
      · have h2 : ¬ k = k' := fun hc => h hc.symm
        simp [aset, alookup, h, h2]
  | cons e es ih =>
      obtain ⟨ek, ev⟩ := e
      by_cases he : ek = k
      · subst he
        by_cases h : k' = ek
        · subst h; simp [aset, alookup]
        · have h3 : ¬ ek = k' := fun hc => h hc.symm
          simp [aset, alookup, h, h3]
      · by_cases h2 : ek = k'
        · have hkk : ¬ k' = k := fun hc => he (h2.trans hc)
          simp [aset, alookup, he, h2, hkk]
        · simp [aset, alookup, he, h2, ih]

theorem alookup_eq_none_iff (k : Nat × Nat) (m : List SkipEntry) :
    alookup k m = none ↔ k ∉ m.map Prod.fst := by
  induction m with
  | nil => simp [alookup]
  | cons e es ih =>
      by_cases h : e.1 = k
      · simp [alookup, h]
      · have h2 : ¬ k = e.1 := fun hc => h hc.symm
        simp [alookup, h, h2, ih]

/-- When the key is not yet present, `Map.set` appends at the end. -/
theorem aset_eq_append (k : Nat × Nat) (v : B) (m : List SkipEntry)
    (h : alookup k m = none) : aset k v m = m ++ [(k, v)] := by
  induction m with
  | nil => simp [aset]
  | cons e es ih =>
      rw [alookup] at h
      by_cases he : e.1 = k
      · simp [he] at h
      · simp [he] at h
        simp [aset, he, ih h]

theorem alookup_append (k : Nat × Nat) (m₁ m₂ : List SkipEntry) :
    alookup k (m₁ ++ m₂) =
      match alookup k m₁ with
      | some v => some v
      | none => alookup k m₂ := by
  induction m₁ with
  | nil => simp [alookup]
  | cons e es ih =>
      by_cases h : e.1 = k <;> simp [alookup, h, ih]

theorem alookup_append_left (k : Nat × Nat) (m₁ m₂ : List SkipEntry) (v : B)
    (h : alookup k m₁ = some v) : alookup k (m₁ ++ m₂) = some v := by
  rw [alookup_append, h]

theorem alookup_append_right (k : Nat × Nat) (m₁ m₂ : List SkipEntry)
    (h : alookup k m₁ = none) : alookup k (m₁ ++ m₂) = alookup k m₂ := by
  rw [alookup_append, h]

theorem alookup_aerase_ne (k k' : Nat × Nat) (m : List SkipEntry) (h : k' ≠ k) :
    alookup k' (aerase k m) = alookup k' m := by
  induction m with
  | nil => simp [aerase]
  | cons e es ih =>
      by_cases he : e.1 = k
      · have hkk' : ¬ k = k' := fun hc => h hc.symm
        simp [aerase, alookup, he, hkk']
      · by_cases h2 : e.1 = k' <;> simp [aerase, alookup, he, h2, h, ih]

theorem alookup_aerase_self (k : Nat × Nat) (m : List SkipEntry)
    (hnd : (m.map Prod.fst).Nodup) : alookup k (aerase k m) = none := by
  induction m with
  | nil => simp [aerase, alookup]
  | cons e es ih =>
      simp only [List.map_cons, List.nodup_cons] at hnd
      by_cases he : e.1 = k
      · rw [aerase, if_pos he, alookup_eq_none_iff]
        rw [← he]; exact hnd.1
      · rw [aerase, if_neg he, alookup, if_neg he]
        exact ih hnd.2

theorem aerase_map_fst_sublist (k : Nat × Nat) (m : List SkipEntry) :
    ((aerase k m).map Prod.fst).Sublist (m.map Prod.fst) := by
  induction m with
  | nil => simp [aerase]
  | cons e es ih =>
      by_cases he : e.1 = k
      · simp only [aerase, if_pos he, List.map_cons]
        exact (List.sublist_cons_self _ _)
      · simp only [aerase, if_neg he, List.map_cons]
        exact ih.cons₂ _

theorem aerase_nodup_keys (k : Nat × Nat) (m : List SkipEntry)
    (hnd : (m.map Prod.fst).Nodup) : ((aerase k m).map Prod.fst).Nodup :=
  (aerase_map_fst_sublist k m).nodup hnd

/-! ### The DoubleRatchet class (double-ratchet.ts) -/

/-- Model of `MessageHeader` of types.ts: the sender's current ratchet public key (a
JWK, modelled by its scalar), the previous-chain length `pn` and the message
number `n`. -/
structure MessageHeader : Type where
  dh : Nat
  pn : Nat
  n : Nat
  deriving DecidableEq, Repr

/-- The private fields of the `DoubleRatchet` class. The TS class keeps both
`DHrJwk : JsonWebKey | null` and the imported `DHr : CryptoKey | null`; every
assignment in the class keeps them in sync (both describe the same remote
public key), so the model carries a single field `DHr`. `DHs` is the local
key pair (its scalar). -/
structure RatchetState : Type where
  DHs : Option Nat
  DHr : Option Nat
  RK : B
  CKs : Option B
  CKr : Option B
  Ns : Nat
  Nr : Nat
  PN : Nat
  MKSKIPPED : List SkipEntry
  deriving DecidableEq, Repr

/-- Model of `initAlice(sharedSecret, bobDHPublicKey)` run on a freshly constructed
`DoubleRatchet` (so `MKSKIPPED` is the empty map created by the field
initializer): generate a fresh `DHs` (scalar `aliceDH`, supplied by the
caller as the random choice), set `DHr` to Bob's public key, and derive
`(RK, CKs)` from the X3DH shared secret and `DH(DHs, DHr)`. -/
def initAlice (sharedSecret : B) (bobDHPublicKey : Nat) (aliceDH : Nat) : RatchetState :=
  let d := kdfRK sharedSecret (performDH aliceDH bobDHPublicKey)
  { DHs := some aliceDH, DHr := some bobDHPublicKey, RK := d.rootKey,
    CKs := some d.chainKey, CKr := none, Ns := 0, Nr := 0, PN := 0, MKSKIPPED := [] }

/-- Model of `initBob(sharedSecret, bobDHKeyPair)` run on a freshly constructed
`DoubleRatchet`: `DHs` is Bob's signed-prekey pair, there is no remote key and
no chain key yet, `RK` is the X3DH shared secret. -/
def initBob (sharedSecret : B) (bobDHKeyPair : Nat) : RatchetState :=
  { DHs := some bobDHKeyPair, DHr := none, RK := sharedSecret,
    CKs := none, CKr := none, Ns := 0, Nr := 0, PN := 0, MKSKIPPED := [] }

/-- Model of `DoubleRatchet.encrypt(plaintext)`: advance the sending chain, encrypt
under the message key, emit the header `(DHs public, PN, Ns)`, increment
`Ns`. Fails when the sending chain or the DH pair is not initialized. -/
def encrypt (s : RatchetState) (plaintext : String) :
    Except RatchetError (RatchetState × MessageHeader × B) :=
  match s.CKs with
  | none => .error .sendingChainNotInitialized
  | some cks =>
    match s.DHs with
    | none => .error .dhKeyPairNotInitialized
    | some dhs =>
      let d := kdfCK cks
      let ciphertext := aesEncrypt d.messageKey plaintext
      let header : MessageHeader := { dh := dhs, pn := s.PN, n := s.Ns }
      .ok ({ s with CKs := some d.chainKey, Ns := s.Ns + 1 }, header, ab2b64 ciphertext)

/-- Result of the `while (Nr < until)` loop body of `skipMessageKeys`. -/
structure SkipChainResult : Type where
  CKr : B
  Nr : Nat
  MKSKIPPED : List SkipEntry
  deriving DecidableEq, Repr

/-- The `while (this.Nr < until)` loop of `skipMessageKeys`, with the number
of remaining iterations (`until - Nr`) made explicit as structural fuel: at
each step derive `(CKr', mk) = kdfCK(CKr)`, store `mk` under the cache key
`(dhPublicJwk, Nr)` and increment `Nr`. -/
def skipChain (dhPublicJwk : Nat) : Nat → B → Nat → List SkipEntry → SkipChainResult
  | 0, ckr, nr, cache => { CKr := ckr, Nr := nr, MKSKIPPED := cache }
  | gap + 1, ckr, nr, cache =>
      let d := kdfCK ckr
      skipChain dhPublicJwk gap d.chainKey (nr + 1) (aset (dhPublicJwk, nr) d.messageKey cache)

/-- Model of `DoubleRatchet.skipMessageKeys(dhPublicJwk, until)`: no-op when there is
no receiving chain; throws `Too many skipped messages` when
`Nr + MAX_SKIP < until` (before any mutation); otherwise advances the
receiving chain to `until`, caching each skipped message key. -/
def skipMessageKeys (dhPublicJwk : Nat) (untl : Nat) (s : RatchetState) :
    Except RatchetError RatchetState :=
  match s.CKr with
  | none => .ok s
  | some ckr =>
    if s.Nr + MAX_SKIP < untl then .error .tooManySkipped
    else
      let r := skipChain dhPublicJwk (untl - s.Nr) ckr s.Nr s.MKSKIPPED
      .ok { s with CKr := some r.CKr, Nr := r.Nr, MKSKIPPED := r.MKSKIPPED }

/-- The tail of `DoubleRatchet.decrypt` after the (possible) DH ratchet step:
`skipMessageKeys(header.dh, header.n)`, then advance the receiving chain once
and AEAD-decrypt. Mutations precede the AEAD call, so on authentication
failure the returned state is the advanced one. -/
def decryptTail (s : RatchetState) (header : MessageHeader) (ciphertext : B) :
    RatchetState × Except RatchetError String :=
  match skipMessageKeys header.dh header.n s with
  | .error e => (s, .error e)
  | .ok s1 =>
    match s1.CKr with
    | none => (s1, .error .receivingChainNotInitialized)
    | some ckr =>
      let d := kdfCK ckr
      let s2 := { s1 with CKr := some d.chainKey, Nr := s1.Nr + 1 }
      (s2, aesDecrypt d.messageKey ciphertext)

/-- Model of `DoubleRatchet.decrypt(header, ciphertext)`. The first component of the
result is the state of the JS object after the call (the method mutates
`this` in place before the points where it can throw). `freshDH` is the
scalar of the key pair produced by `generateDHKeyPair()` during a DH ratchet
step. Steps: (1) a skipped-key cache hit pops the entry and decrypts with the
cached key; (2) a header carrying a new remote public key triggers the DH
ratchet step (first skipping the tail of the previous receiving chain up to
`header.pn` when one exists); (3) `skipMessageKeys(header.dh, header.n)`,
advance the receiving chain, AEAD-decrypt. -/
def decrypt (freshDH : Nat) (s : RatchetState) (header : MessageHeader)
    (ciphertext : B) : RatchetState × Except RatchetError String :=
  match alookup (header.dh, header.n) s.MKSKIPPED with
  | some mk =>
      ({ s with MKSKIPPED := aerase (header.dh, header.n) s.MKSKIPPED },
        aesDecrypt mk (b642ab ciphertext))
  | none =>
    if s.DHr = some header.dh then
      -- no DH ratchet step needed
      decryptTail s header (b642ab ciphertext)
    else
      -- skip missed messages in the current chain, if one exists
      let step1 : Except RatchetError RatchetState :=
        match s.CKr, s.DHr with
        | some _, some oldDHr => skipMessageKeys oldDHr header.pn s
        | _, _ => .ok s
      match step1 with
      | .error e => (s, .error e)
      | .ok s1 =>
        -- DH ratchet step
        let s2 := { s1 with PN := s1.Ns, Ns := 0, Nr := 0, DHr := some header.dh }
        match s2.DHs with
        | none => (s2, .error .dhKeyPairNotInitialized)
        | some dhs =>
          let d1 := kdfRK s2.RK (performDH dhs header.dh)
          let s3 := { s2 with RK := d1.rootKey, CKr := some d1.chainKey }
          -- generate a new DH key pair
          let d2 := kdfRK s3.RK (performDH freshDH header.dh)
          let s4 := { s3 with DHs := some freshDH, RK := d2.rootKey, CKs := some d2.chainKey }
          decryptTail s4 header (b642ab ciphertext)

/-- Model of `KeyPairJWK` of types.ts, for a serialized key pair (modelled by the
pair's scalar: both exported JWKs are determined by it). -/
structure SerializedSessionState : Type where
  DHs : Nat
  DHr : Option Nat
  RK : B
  CKs : Option B
  CKr : Option B
  Ns : Nat
  Nr : Nat
  PN : Nat
  MKSKIPPED : List SkipEntry
  deriving DecidableEq, Repr

/-- Model of `DoubleRatchet.serialize()`: export both halves of `DHs` (the TS code
dereferences `this.DHs!`, so the model requires the pair to be present and
returns `none` exactly when the TS code would throw), the remote JWK, and the
base64 of every buffer; the skipped cache is dumped as an entry list. -/
def serialize (s : RatchetState) : Option SerializedSessionState :=
  s.DHs.map fun dhs =>
    { DHs := dhs, DHr := s.DHr, RK := ab2b64 s.RK,
      CKs := s.CKs.map ab2b64, CKr := s.CKr.map ab2b64,
      Ns := s.Ns, Nr := s.Nr, PN := s.PN,
      MKSKIPPED := s.MKSKIPPED.map fun e => (e.1, ab2b64 e.2) }

/-- Model of `DoubleRatchet.deserialize(state)`: re-import the key material and decode
every buffer, rebuilding the skipped-key map from the entry list. -/
def deserialize (st : SerializedSessionState) : RatchetState :=
  { DHs := some st.DHs, DHr := st.DHr, RK := b642ab st.RK,
    CKs := st.CKs.map b642ab, CKr := st.CKr.map b642ab,
    Ns := st.Ns, Nr := st.Nr, PN := st.PN,
    MKSKIPPED := st.MKSKIPPED.map fun e => (e.1, b642ab e.2) }

/-! ### X3DH agreement (x3dh.ts) -/

/-- Model of `const X3DH_INFO = 'signal-x3dh-shared-secret'`. -/
def X3DH_INFO : String := "signal-x3dh-shared-secret"

/-- Model of `concatBuffers(...buffers)` of utils.ts, modelled by right-nested symbolic
concatenation (an injective encoding of the byte-string concatenation). -/
def concatBuffers : List B → B
  | [] => B.raw []
  | [b] => b
  | b :: bs => B.cat b (concatBuffers bs)

/-- The `signedPreKey` component of `PreKeyBundle` (types.ts). -/
structure BundleSignedPreKey : Type where
  keyId : Nat
  publicKey : Nat
  signature : B
  deriving DecidableEq, Repr

/-- The optional `oneTimePreKey` component of `PreKeyBundle` (types.ts). -/
structure BundleOneTimePreKey : Type where
  keyId : Nat
  publicKey : Nat
  deriving DecidableEq, Repr

/-- Model of `PreKeyBundle` of types.ts. -/
structure PreKeyBundle : Type where
  identityKey : Nat
  signedPreKey : BundleSignedPreKey
  oneTimePreKey : Option BundleOneTimePreKey
  deriving DecidableEq, Repr

/-- Result of `initiateX3DH`. -/
structure X3DHInitResult : Type where
  sharedSecret : B
  ephemeralPublicKey : Nat
  usedOneTimePreKeyId : Option Nat
  deriving DecidableEq, Repr

/-- The serialized-JWK byte string that `generatePreKeyBundle` signs and that
a verifier would check: `TextEncoder().encode(JSON.stringify(publicJwk))`.
JWK serialization is injective in the key, so this is modelled as a free
function of the public-key scalar. -/
def signedPreKeyData (publicKey : Nat) : B := B.raw [publicKey]

/-- Model of `signData(privateKey, data)` of utils.ts (ECDSA P-256 / SHA-256). -/
def signData (signingPrivateKey : Nat) (data : B) : B := B.sig signingPrivateKey data

/-- Modelled from the spec: `verify(pub, data, sig) → boolean` of the design's
crypto-primitives facade (§4.1) — the check that the initiator is required to
run on a fetched bundle ("Verify the signed prekey signature", §4.5;
`BundleInvalid`, §7). The repository's utils.ts exposes `signData` but no
verification primitive, and no caller verifies; this definition embeds the
missing check: an ECDSA signature verifies under the public key of the pair
that produced it over the same data. -/
def verifySignature (signingPublicKey : Nat) (data : B) (signature : B) : Bool :=
  signature = B.sig signingPublicKey data

/-- Model of `initiateX3DH(aliceIdentityKeyPair, bobBundle)` of x3dh.ts. The fresh
ephemeral pair generated inside is supplied as the scalar
`ephemeralKeyPair`. `DH1 = DH(IKa, SPKb)`, `DH2 = DH(EKa, IKb)`,
`DH3 = DH(EKa, SPKb)`, optionally `DH4 = DH(EKa, OPKb)`; the shared secret is
`HKDF(DH1 ∥ DH2 ∥ DH3 [∥ DH4], 32 zero bytes, X3DH_INFO, 32)`. -/
def initiateX3DH (aliceIdentityKeyPair ephemeralKeyPair : Nat)
    (bobBundle : PreKeyBundle) : X3DHInitResult :=
  let dh1 := performDH aliceIdentityKeyPair bobBundle.signedPreKey.publicKey
  let dh2 := performDH ephemeralKeyPair bobBundle.identityKey
  let dh3 := performDH ephemeralKeyPair bobBundle.signedPreKey.publicKey
  match bobBundle.oneTimePreKey with
  | some otpk =>
      let dh4 := performDH ephemeralKeyPair otpk.publicKey
      { sharedSecret :=
          B.hkdf (concatBuffers [dh1, dh2, dh3, dh4]) (B.raw (List.replicate 32 0)) X3DH_INFO 32,
        ephemeralPublicKey := ephemeralKeyPair,
        usedOneTimePreKeyId := some otpk.keyId }
  | none =>
      { sharedSecret :=
          B.hkdf (concatBuffers [dh1, dh2, dh3]) (B.raw (List.replicate 32 0)) X3DH_INFO 32,
        ephemeralPublicKey := ephemeralKeyPair,
        usedOneTimePreKeyId := none }

/-- Model of `completeX3DH(bobIdentityKeyPair, bobSignedPreKeyPair, bobOneTimePreKeyPair,
aliceIdentityKey, aliceEphemeralKey)` of x3dh.ts:
`DH1 = DH(SPKb, IKa)`, `DH2 = DH(IKb, EKa)`, `DH3 = DH(SPKb, EKa)`,
optionally `DH4 = DH(OPKb, EKa)`, then the same HKDF as the initiator. -/
def completeX3DH (bobIdentityKeyPair bobSignedPreKeyPair : Nat)
    (bobOneTimePreKeyPair : Option Nat) (aliceIdentityKey aliceEphemeralKey : Nat) : B :=
  let dh1 := performDH bobSignedPreKeyPair aliceIdentityKey
  let dh2 := performDH bobIdentityKeyPair aliceEphemeralKey
  let dh3 := performDH bobSignedPreKeyPair aliceEphemeralKey
  match bobOneTimePreKeyPair with
  | some otpk =>
      let dh4 := performDH otpk aliceEphemeralKey
      B.hkdf (concatBuffers [dh1, dh2, dh3, dh4]) (B.raw (List.replicate 32 0)) X3DH_INFO 32
  | none =>
      B.hkdf (concatBuffers [dh1, dh2, dh3]) (B.raw (List.replicate 32 0)) X3DH_INFO 32

/-! ### Safety number (safety-number.ts) -/

/-- Model of `TextEncoder().encode`: UTF-8 code points of a string (modelled at the
code-point level; injective, which is all the derivation needs). -/
def utf8 (s : String) : List Nat := s.data.map Char.toNat

/-- Model of `(bytes[i] << 24 | bytes[i+1] << 16 | bytes[i+2] << 8 | bytes[i+3]) >>> 0`
for a `Uint8Array` (all entries < 256, on which this formula is exact). -/
def sfWord32 (bytes : List Nat) (i : Nat) : Nat :=
  (bytes.getD i 0 * 2 ^ 24 + bytes.getD (i + 1) 0 * 2 ^ 16 +
    bytes.getD (i + 2) 0 * 2 ^ 8 + bytes.getD (i + 3) 0) % 2 ^ 32

/-- Model of `String.prototype.padStart(len, c)`: left-pad to `len` characters.
`Nat.repr` is exactly JS `String(num)` on naturals. -/
def padStart (s : String) (len : Nat) (c : Char) : String :=
  String.mk (List.replicate (len - s.length) c) ++ s

/-- Model of `Array.prototype.join(' ')`. -/
def joinSpace : List String → String
  | [] => ""
  | [x] => x
  | x :: xs => x ++ " " ++ joinSpace xs

/-- The group-collection loop
`for (let i = 0; i < 30 && i + 3 < bytes.length; i += 5)` of
`generateSafetyNumber`, pushing `String(num % 100000).padStart(5, '0')` at
each step. The loop index grows by 5 under the guard `i < 30`, so it runs at
most 6 iterations; the structural fuel 30 passed by the caller is never
exhausted before the guard fails. -/
def safetyGroups (bytes : List Nat) : Nat → Nat → List String
  | 0, _ => []
  | fuel + 1, i =>
      if i < 30 ∧ i + 3 < bytes.length then
        padStart (Nat.repr (sfWord32 bytes i % 100000)) 5 '0' ::
          safetyGroups bytes fuel (i + 5)
      else []

/-- Model of `generateSafetyNumber(localIdentityKey, remoteIdentityKey)` of
safety-number.ts. The two JWK arguments enter only through
`JSON.stringify`, which is injective on JWKs, so the model takes the two
serialized strings directly; `sha256` is the abstract SHA-256 digest
function (`crypto.subtle.digest`), applied once and then 4 more times. -/
def generateSafetyNumber (sha256 : List Nat → List Nat)
    (localIdentityKey remoteIdentityKey : String) : String :=
  let localStr := localIdentityKey
  let remoteStr := remoteIdentityKey
  let p := if localStr < remoteStr then (localStr, remoteStr) else (remoteStr, localStr)
  let combined := utf8 (p.1 ++ p.2)
  let hash := sha256 (sha256 (sha256 (sha256 (sha256 combined))))
  joinSpace (safetyGroups hash 30 0)

/-! ### Protocol orchestrator (signal-protocol.ts)

The orchestrator's external surfaces — `JSON.parse`, the supabase directory
queries, the IndexedDB key store and the RNG — are modelled as explicit
inputs: a `DecryptEnv`/`DirectoryEnv` record carries the value each external
call returns during the operation, and the local key store is a `LocalStore`
record threaded through. -/

/-- The `x3dh` preamble of `SignalMessage` (types.ts). -/
structure X3DHPreamble : Type where
  identityKey : Nat
  ephemeralKey : Nat
  oneTimePreKeyId : Option Nat
  deriving DecidableEq, Repr

/-- Model of `SignalMessage` of types.ts (the `v` field is fixed to 2 by the type). -/
structure SignalMessage : Type where
  header : MessageHeader
  ciphertext : B
  x3dh : Option X3DHPreamble
  deriving DecidableEq, Repr

/-- Model of `StoredIdentity` of types.ts (key material only; scalars stand for the
serialized key pairs). -/
structure StoredIdentity : Type where
  keyPair : Nat
  signingKeyPair : Nat
  deriving DecidableEq, Repr

/-- Model of `StoredSignedPreKey` of types.ts. -/
structure StoredSignedPreKey : Type where
  keyId : Nat
  keyPair : Nat
  signature : B
  deriving DecidableEq, Repr

/-- Model of `StoredOneTimePreKey` of types.ts. -/
structure StoredOneTimePreKey : Type where
  keyId : Nat
  keyPair : Nat
  deriving DecidableEq, Repr

/-- The local IndexedDB key store (key-store.ts) restricted to the
collections the orchestrator's session paths touch, for one fixed user. -/
structure LocalStore : Type where
  identity : Option StoredIdentity
  signedPreKeys : List StoredSignedPreKey
  oneTimePreKeys : List StoredOneTimePreKey
  deriving DecidableEq, Repr

/-- Model of `getSignedPreKey(userId, keyId)`: lookup by the unique `(userId, keyId)`
index. -/
def getSignedPreKey (store : LocalStore) (keyId : Nat) : Option StoredSignedPreKey :=
  store.signedPreKeys.find? fun p => p.keyId = keyId

/-- Model of `getOneTimePreKey(userId, keyId)`. -/
def getOneTimePreKey (store : LocalStore) (keyId : Nat) : Option StoredOneTimePreKey :=
  store.oneTimePreKeys.find? fun p => p.keyId = keyId

/-- Model of `deleteOneTimePreKey(userId, keyId)`: delete the rows matching the unique
`(userId, keyId)` index. -/
def deleteOneTimePreKey (store : LocalStore) (keyId : Nat) : LocalStore :=
  { store with oneTimePreKeys := store.oneTimePreKeys.filter fun p => ¬ p.keyId = keyId }

/-- The `throw new Error(...)` sites of signal-protocol.ts session paths. -/
inductive ProtocolError : Type where
  | noX3DHHeader
  | identityNotInitialized
  | remoteUserHasNoPreKeyBundle
  | noSignedPreKey
  | signedPreKeyMissingFromLocalStore
  deriving DecidableEq, Repr

/-- Model of `SignalProtocol.completeSession(conversationId, remoteUserId, message)`:
look up the latest signed prekey id on the server (`latestSignedPreKeyId`
models the `signed_prekeys` query result), fetch it from the local store,
optionally look up — and then delete — the referenced one-time prekey, run
the responder X3DH and install a Bob-initial ratchet. When the referenced
one-time prekey is *not* found locally (`getOneTimePreKey` misses), the code
leaves `bobOTPKP = null` and still runs `completeX3DH` without the fourth DH.
Returns the updated local store together with the installed ratchet. -/
def completeSession (latestSignedPreKeyId : Option Nat) (store : LocalStore)
    (message : SignalMessage) : Except ProtocolError (LocalStore × RatchetState) :=
  match message.x3dh with
  | none => .error .noX3DHHeader
  | some x3dh =>
    match store.identity with
    | none => .error .identityNotInitialized
    | some identity =>
      match latestSignedPreKeyId with
      | none => .error .noSignedPreKey
      | some keyId =>
        match getSignedPreKey store keyId with
        | none => .error .signedPreKeyMissingFromLocalStore
        | some storedSPK =>
          let step : Option Nat × LocalStore :=
            match x3dh.oneTimePreKeyId with
            | none => (none, store)
            | some otpkId =>
              match getOneTimePreKey store otpkId with
              | some storedOTPK => (some storedOTPK.keyPair, deleteOneTimePreKey store otpkId)
              | none => (none, store)
          let sharedSecret :=
            completeX3DH identity.keyPair storedSPK.keyPair step.1
              x3dh.identityKey x3dh.ephemeralKey
          .ok (step.2, initBob sharedSecret storedSPK.keyPair)

/-- One row of the server's `signed_prekeys` table as fetched by
`fetchPreKeyBundle`. -/
structure SignedPreKeyRow : Type where
  keyId : Nat
  publicKey : Nat
  signature : B
  deriving DecidableEq, Repr

/-- The `claim_one_time_prekey` RPC result. -/
structure OneTimePreKeyRow : Type where
  keyId : Nat
  publicKey : Nat
  deriving DecidableEq, Repr

/-- The directory (supabase) responses consumed by `fetchPreKeyBundle` for
one remote user: the `identity_keys` row, the newest `signed_prekeys` row and
the claimed one-time prekey. -/
structure DirectoryEnv : Type where
  identityKeyRow : Option Nat
  signedPreKeyRow : Option SignedPreKeyRow
  claimedOneTimePreKey : Option OneTimePreKeyRow
  deriving DecidableEq, Repr

/-- Model of `SignalProtocol.fetchPreKeyBundle(remoteUserId)`: assemble the bundle
from the three directory reads; `none` when the identity or signed-prekey
row is missing. The fetched signature is placed in the bundle but never
checked. -/
def fetchPreKeyBundle (dir : DirectoryEnv) : Option PreKeyBundle :=
  match dir.identityKeyRow with
  | none => none
  | some idKey =>
    match dir.signedPreKeyRow with
    | none => none
    | some spk =>
      some { identityKey := idKey,
             signedPreKey :=
               { keyId := spk.keyId, publicKey := spk.publicKey, signature := spk.signature },
             oneTimePreKey :=
               dir.claimedOneTimePreKey.map fun o =>
                 { keyId := o.keyId, publicKey := o.publicKey } }

/-- Model of `SignalProtocol.initiateSession(conversationId, remoteUserId)`: fetch the
remote bundle, run the initiator X3DH and install an Alice-initial ratchet
keyed by the conversation. `ephemeralKeyPair` and `aliceDH` are the scalars
of the two key pairs generated during the call (the X3DH ephemeral and the
ratchet's first sending pair). Returns the installed ratchet, the ephemeral
public key and the used one-time prekey id. -/
def initiateSession (store : LocalStore) (dir : DirectoryEnv)
    (ephemeralKeyPair aliceDH : Nat) :
    Except ProtocolError (RatchetState × Nat × Option Nat) :=
  match store.identity with
  | none => .error .identityNotInitialized
  | some identity =>
    match fetchPreKeyBundle dir with
    | none => .error .remoteUserHasNoPreKeyBundle
    | some bundle =>
      let r := initiateX3DH identity.keyPair ephemeralKeyPair bundle
      .ok (initAlice r.sharedSecret bundle.signedPreKey.publicKey aliceDH,
           r.ephemeralPublicKey, r.usedOneTimePreKeyId)

/-- The user-visible placeholder `'[Không thể giải mã]'` returned by the
`catch` of `decryptMessage`. -/
def UNDECRYPTABLE_MSG : String := "[Không thể giải mã]"

/-- The user-visible placeholder `'[Không có session mã hóa]'` returned when
no session exists and the envelope carries no `x3dh` preamble. -/
def NO_SESSION_MSG : String := "[Không có session mã hóa]"

/-- The outcome of `JSON.parse(encryptedString)` as observed by
`decryptMessage`: the parse may throw (`none`), or produce a value whose `v`
field is not `2` (`other`), or produce an object with `v = 2`, which the code
casts to `SignalMessage`. -/
inductive ParsedJson : Type where
  | signalMsg : SignalMessage → ParsedJson
  | other : ParsedJson
  deriving DecidableEq, Repr

/-- The external inputs consumed by one `decryptMessage` call. -/
structure DecryptEnv : Type where
  parsed : Option ParsedJson
  cachedSession : Option RatchetState
  storedSession : Option SerializedSessionState
  latestSignedPreKeyId : Option Nat
  store : LocalStore
  freshDH : Nat
  deriving DecidableEq, Repr

/-- The observable outcome of one `decryptMessage` call: the returned string,
the ratchet held in `this.sessions` for the conversation after the call (the
live object is mutated in place also when decrypt throws), the snapshot
persisted by `persistSession` (`none` when the failure path skipped it), and
the local store after the call. -/
structure DecryptOutcome : Type where
  result : String
  session : Option RatchetState
  persisted : Option RatchetState
  store : LocalStore
  deriving DecidableEq, Repr

/-- Model of `SignalProtocol.decryptMessage(conversationId, remoteUserId,
encryptedString)`. The whole body runs in a `try` whose `catch` returns
`UNDECRYPTABLE_MSG`: a `JSON.parse` failure, a `completeSession` failure and
a ratchet decrypt failure all land there; an envelope whose `v` is not 2 is
returned unchanged; an envelope with no session and no `x3dh` preamble
yields `NO_SESSION_MSG`; otherwise the (cached, stored or freshly completed)
ratchet decrypts and the session is persisted only after success. -/
def decryptMessage (env : DecryptEnv) (encryptedString : String) : DecryptOutcome :=
  match env.parsed with
  | none => ⟨UNDECRYPTABLE_MSG, env.cachedSession, none, env.store⟩
  | some .other => ⟨encryptedString, env.cachedSession, none, env.store⟩
  | some (.signalMsg m) =>
    let r0 : Option RatchetState :=
      match env.cachedSession with
      | some r => some r
      | none => env.storedSession.map deserialize
    match r0 with
    | some r =>
        let d := decrypt env.freshDH r m.header m.ciphertext
        match d.2 with
        | .ok pt => ⟨pt, some d.1, some d.1, env.store⟩
        | .error _ => ⟨UNDECRYPTABLE_MSG, some d.1, none, env.store⟩
    | none =>
      match m.x3dh with
      | none => ⟨NO_SESSION_MSG, none, none, env.store⟩
      | some _ =>
        match completeSession env.latestSignedPreKeyId env.store m with
        | .error _ => ⟨UNDECRYPTABLE_MSG, none, none, env.store⟩
        | .ok (store1, r) =>
          let d := decrypt env.freshDH r m.header m.ciphertext
          match d.2 with
          | .ok pt => ⟨pt, some d.1, some d.1, store1⟩
          | .error _ => ⟨UNDECRYPTABLE_MSG, some d.1, none, store1⟩

/-! ### Ghost definitions for the out-of-order delivery argument

One fixed sending chain: Alice's session is `initAlice ss bKP aDH` (shared
secret `ss`, Bob's signed prekey scalar `bKP`, Alice's ratchet pair scalar
`aDH`) and she only encrypts, so all her messages live in her first sending
chain. Bob's session is `initBob ss bKP`. -/

/-- Alice's sending chain key after `i` encrypts (also Bob's receiving chain
key at position `i`, by DH commutativity). -/
def sendCK (ss : B) (aDH bKP : Nat) : Nat → B
  | 0 => (kdfRK ss (performDH aDH bKP)).chainKey
  | i + 1 => (kdfCK (sendCK ss aDH bKP i)).chainKey

/-- The message key of message `i` of the chain. -/
def mkAt (ss : B) (aDH bKP : Nat) (i : Nat) : B :=
  (kdfCK (sendCK ss aDH bKP i)).messageKey

/-- The header Alice's `encrypt` emits for message `i` (her `PN` stays 0). -/
def hdrAt (aDH : Nat) (i : Nat) : MessageHeader := { dh := aDH, pn := 0, n := i }

/-- The ciphertext Alice's `encrypt` emits for message `i`. -/
def ctAt (ss : B) (aDH bKP : Nat) (msgs : Nat → String) (i : Nat) : B :=
  ab2b64 (aesEncrypt (mkAt ss aDH bKP i) (msgs i))

/-- Alice's ratchet state after `n` encrypts. -/
def aliceSt (ss : B) (aDH bKP : Nat) (n : Nat) : RatchetState :=
  { DHs := some aDH, DHr := some bKP,
    RK := (kdfRK ss (performDH aDH bKP)).rootKey,
    CKs := some (sendCK ss aDH bKP n), CKr := none,
    Ns := n, Nr := 0, PN := 0, MKSKIPPED := [] }

/-- Bob's root key after the first half of his initial DH ratchet step. -/
def bobRK1 (ss : B) (aDH bKP : Nat) : B :=
  (kdfRK ss (performDH bKP aDH)).rootKey

/-- Bob's root key after his initial DH ratchet step. -/
def bobRK2 (ss : B) (aDH bKP freshDH : Nat) : B :=
  (kdfRK (bobRK1 ss aDH bKP) (performDH freshDH aDH)).rootKey

/-- Bob's sending chain key after his initial DH ratchet step. -/
def bobCKs (ss : B) (aDH bKP freshDH : Nat) : B :=
  (kdfRK (bobRK1 ss aDH bKP) (performDH freshDH aDH)).chainKey

/-- Sequentially encrypt a list of plaintexts, collecting the emitted
(header, ciphertext) pairs. -/
def encryptList : RatchetState → List String → Except RatchetError (RatchetState × List (MessageHeader × B))
  | s, [] => .ok (s, [])
  | s, p :: ps =>
    match encrypt s p with
    | .error e => .error e
    | .ok (s1, hd, c) =>
      match encryptList s1 ps with
      | .error e => .error e
      | .ok (s2, rest) => .ok (s2, (hd, c) :: rest)

/-- Sequentially decrypt a list of delivered (header, ciphertext) pairs,
collecting each call's result (the live ratchet object is threaded through,
also past failed calls, as the JS object is). -/
def processList (freshDH : Nat) : RatchetState → List (MessageHeader × B) → RatchetState × List (Except RatchetError String)
  | s, [] => (s, [])
  | s, (hd, c) :: rest =>
    let d := decrypt freshDH s hd c
    let r := processList freshDH d.1 rest
    (r.1, d.2 :: r.2)

/-- Bob's receiving counter after processing the deliveries `R` of a single
chain: each delivery of message `i` with `i ≥ Nr` advances `Nr` to `i + 1`,
a cached delivery leaves it. -/
def nrOf (R : List Nat) : Nat := R.foldl (fun a i => max a (i + 1)) 0

/-- The delivery-gap condition of the claim, checked sequentially: each
delivered index is at most 256 above the receiver's current `Nr`. -/
def gapOKFrom (nr : Nat) : List Nat → Bool
  | [] => true
  | i :: rest => if i ≤ nr + MAX_SKIP then gapOKFrom (max nr (i + 1)) rest else false

/-- Contents of Bob's skipped-key cache after the single-chain deliveries
`R`: exactly the keys of the not-yet-delivered positions below `Nr`. -/
def CacheSpec (ss : B) (aDH bKP : Nat) (R : List Nat) (cache : List SkipEntry) : Prop :=
  (cache.map Prod.fst).Nodup ∧
  ∀ p j, alookup (p, j) cache =
    if p = aDH ∧ j < nrOf R ∧ j ∉ R then some (mkAt ss aDH bKP j) else none

/-- Bob's reachable states while receiving Alice's single chain: before the
first delivery he is in the Bob-initial state; afterwards his ratchet has
stepped once and the receiving chain tracks `nrOf R`. -/
def BobInv (ss : B) (aDH bKP freshDH : Nat) (R : List Nat) (s : RatchetState) : Prop :=
  (R = [] ∧ s = initBob ss bKP) ∨
  (R ≠ [] ∧ s.DHs = some freshDH ∧ s.DHr = some aDH ∧
    s.RK = bobRK2 ss aDH bKP freshDH ∧ s.CKs = some (bobCKs ss aDH bKP freshDH) ∧
    s.CKr = some (sendCK ss aDH bKP (nrOf R)) ∧ s.Ns = 0 ∧ s.PN = 0 ∧
    s.Nr = nrOf R ∧ CacheSpec ss aDH bKP R s.MKSKIPPED)

theorem le_foldl_max (a : Nat) (R : List Nat) :
    a ≤ R.foldl (fun x i => max x (i + 1)) a := by
  induction R generalizing a with
  | nil => exact le_refl a
  | cons i R ih =>
      exact le_trans (le_max_left a (i + 1)) (ih (max a (i + 1)))

theorem mem_lt_foldl_max (t : Nat) (R : List Nat) :
    ∀ a : Nat, t ∈ R → t < R.foldl (fun x i => max x (i + 1)) a := by
  induction R with
  | nil => intro a h; cases h
  | cons i R ih =>
      intro a h
      rcases List.mem_cons.mp h with rfl | hmem
      · calc t < t + 1 := Nat.lt_succ_self t
          _ ≤ max a (t + 1) := le_max_right a (t + 1)
          _ ≤ _ := le_foldl_max _ R
      · exact ih _ hmem

theorem mem_lt_nrOf (t : Nat) (R : List Nat) (h : t ∈ R) : t < nrOf R :=
  mem_lt_foldl_max t R 0 h

theorem nrOf_append_singleton (R : List Nat) (i : Nat) :
    nrOf (R ++ [i]) = max (nrOf R) (i + 1) := by
  simp [nrOf, List.foldl_append]

theorem nrOf_nil : nrOf [] = 0 := rfl

theorem alookup_range_map (ss : B) (aDH bKP : Nat) (p j : Nat) (g : Nat) :
    ∀ a : Nat,
      alookup (p, j) ((List.range' a g).map fun t => ((aDH, t), mkAt ss aDH bKP t)) =
        if p = aDH ∧ a ≤ j ∧ j < a + g then some (mkAt ss aDH bKP j) else none := by
  induction g with
  | zero =>
      intro a
      have h : ¬ (p = aDH ∧ a ≤ j ∧ j < a) := fun hc => by
        obtain ⟨_, h1, h2⟩ := hc; omega
      simp [alookup, h]
  | succ g ih =>
      intro a
      rw [List.range'_succ, List.map_cons]
      by_cases hpj : (aDH, a) = (p, j)
      · obtain ⟨rfl, rfl⟩ : p = aDH ∧ j = a :=
          ⟨(Prod.mk.injEq _ _ _ _ ▸ hpj).1.symm, (Prod.mk.injEq _ _ _ _ ▸ hpj).2.symm⟩
        simp [alookup, Nat.lt_add_of_pos_right]
      · have hcond : ¬ (((aDH, a), mkAt ss aDH bKP a).1 = (p, j)) := hpj
        rw [alookup, if_neg hcond, ih (a + 1)]
        by_cases hp : p = aDH
        · subst hp
          have hja : j ≠ a := fun hc => hpj (by rw [hc])
          by_cases h1 : a + 1 ≤ j
          · have h2 : a ≤ j := le_trans (Nat.le_succ a) h1
            by_cases h3 : j < a + 1 + g
            · have h4 : j < a + (g + 1) := by omega
              simp [h1, h2, h3, h4]
            · have h4 : ¬ j < a + (g + 1) := by omega
              simp [h1, h3, h4]
          · have h2 : ¬ (a ≤ j ∧ j < a + (g + 1)) := fun hc => by
              rcases Nat.lt_or_ge j (a + 1) with hlt | hge
              · exact hja (by omega)
              · exact h1 hge
            simp [h1, h2]
        · simp [hp]

theorem aset_fresh_append (k : Nat × Nat) (v : B) (m : List SkipEntry)
    (h : alookup k m = none) : aset k v m = m ++ [(k, v)] :=
  aset_eq_append k v m h

theorem skipChain_sendCK (ss : B) (aDH bKP : Nat) (g : Nat) :
    ∀ (nr : Nat) (cache : List SkipEntry),
      (∀ j, nr ≤ j → alookup (aDH, j) cache = none) →
      skipChain aDH g (sendCK ss aDH bKP nr) nr cache =
        { CKr := sendCK ss aDH bKP (nr + g), Nr := nr + g,
          MKSKIPPED := cache ++ (List.range' nr g).map fun t => ((aDH, t), mkAt ss aDH bKP t) } := by
  induction g with
  | zero => intro nr cache _; simp [skipChain]
  | succ g ih =>
      intro nr cache hfresh
      have hset : aset (aDH, nr) (kdfCK (sendCK ss aDH bKP nr)).messageKey cache =
          cache ++ [((aDH, nr), mkAt ss aDH bKP nr)] :=
        aset_eq_append _ _ _ (hfresh nr (le_refl nr))
      have hchain : (kdfCK (sendCK ss aDH bKP nr)).chainKey = sendCK ss aDH bKP (nr + 1) := rfl
      rw [skipChain, hchain, hset]
      have hfresh2 : ∀ j, nr + 1 ≤ j →
          alookup (aDH, j) (cache ++ [((aDH, nr), mkAt ss aDH bKP nr)]) = none := by
        intro j hj
        rw [alookup_append, hfresh j (le_trans (Nat.le_succ nr) hj)]
        have : ¬ ((aDH, nr) : Nat × Nat) = (aDH, j) := by
          intro hc
          have : nr = j := (Prod.mk.injEq _ _ _ _ ▸ hc).2
          omega
        simp [alookup, this]
      rw [ih (nr + 1) _ hfresh2]
      have h1 : nr + 1 + g = nr + (g + 1) := by omega
      rw [List.range'_succ, List.map_cons, h1]
      simp [List.append_assoc]

theorem CacheSpec_nil (ss : B) (aDH bKP : Nat) : CacheSpec ss aDH bKP [] [] := by
  refine ⟨List.nodup_nil, fun p j => ?_⟩
  have h : ¬ (p = aDH ∧ j < nrOf [] ∧ j ∉ ([] : List Nat)) := fun hc => by
    obtain ⟨_, h1, _⟩ := hc
    rw [nrOf_nil] at h1
    omega
  rw [if_neg h]
  rfl

theorem cacheAppend_spec (ss : B) (aDH bKP : Nat) (R : List Nat)
    (cache : List SkipEntry) (i : Nat)
    (hcache : CacheSpec ss aDH bKP R cache) (hge : nrOf R ≤ i) (hni : i ∉ R) :
    CacheSpec ss aDH bKP (R ++ [i])
      (cache ++ (List.range' (nrOf R) (i - nrOf R)).map fun t => ((aDH, t), mkAt ss aDH bKP t)) := by
  obtain ⟨hnd, hlook⟩ := hcache
  have hfresh : ∀ j, nrOf R ≤ j → alookup (aDH, j) cache = none := by
    intro j hj
    rw [hlook aDH j]
    have h : ¬ (aDH = aDH ∧ j < nrOf R ∧ j ∉ R) := fun hc => by
      obtain ⟨_, h1, _⟩ := hc; omega
    rw [if_neg h]
  have hmem : ∀ j : Nat, j ∉ R ++ [i] ↔ j ∉ R ∧ j ≠ i := by
    intro j; simp [List.mem_append]
  have hnr : nrOf (R ++ [i]) = i + 1 := by
    rw [nrOf_append_singleton]; omega
  constructor
  · -- keys stay distinct: the appended keys are fresh and pairwise distinct
    rw [List.map_append]
    refine List.Nodup.append hnd ?_ ?_
    · rw [List.map_map]
      have hcomp : (Prod.fst ∘ fun t => ((aDH, t), mkAt ss aDH bKP t)) =
          fun t => ((aDH, t) : Nat × Nat) := rfl
      rw [hcomp]
      exact (List.nodup_range' _ _).map (fun a b h => (Prod.mk.injEq _ _ _ _ ▸ h).2)
    · intro x hx1 hx2
      rw [List.map_map] at hx2
      obtain ⟨t, ht, rfl⟩ := List.mem_map.mp hx2
      have htge : nrOf R ≤ t := (List.mem_range'_1.mp ht).1
      have : alookup ((aDH, t) : Nat × Nat) cache = none := hfresh t htge
      exact (alookup_eq_none_iff _ _).mp this hx1
  · intro p j
    by_cases hp : p = aDH
    · subst hp
      by_cases h1 : j < nrOf R ∧ j ∉ R
      · -- served by the old cache
        have hold : alookup (p, j) cache = some (mkAt ss p bKP j) := by
          rw [hlook, if_pos ⟨rfl, h1.1, h1.2⟩]
        rw [alookup_append_left _ _ _ _ hold]
        have hC : p = p ∧ j < nrOf (R ++ [i]) ∧ j ∉ R ++ [i] :=
          ⟨rfl, by rw [hnr]; omega, (hmem j).mpr ⟨h1.2, by omega⟩⟩
        rw [if_pos hC]
      · have hold : alookup (p, j) cache = none := by
          rw [hlook, if_neg (fun hc => h1 ⟨hc.2.1, hc.2.2⟩)]
        rw [alookup_append_right _ _ _ hold, alookup_range_map]
        by_cases h2 : nrOf R ≤ j ∧ j < i
        · -- freshly skipped position
          rw [if_pos ⟨rfl, h2.1, by omega⟩]
          have hjR : j ∉ R := fun hc => absurd (mem_lt_nrOf j R hc) (by omega)
          have hC : p = p ∧ j < nrOf (R ++ [i]) ∧ j ∉ R ++ [i] :=
            ⟨rfl, by rw [hnr]; omega, (hmem j).mpr ⟨hjR, by omega⟩⟩
          rw [if_pos hC]
        · rw [if_neg (fun hc => h2 ⟨hc.2.1, by omega⟩)]
          have hC : ¬ (p = p ∧ j < nrOf (R ++ [i]) ∧ j ∉ R ++ [i]) := by
            intro hc
            obtain ⟨_, h3, h4⟩ := hc
            rw [hnr] at h3
            obtain ⟨h5, h6⟩ := (hmem j).mp h4
            rcases Nat.lt_or_ge j (nrOf R) with h7 | h7
            · exact h1 ⟨h7, h5⟩
            · exact h2 ⟨h7, by omega⟩
          rw [if_neg hC]
    · have hold : alookup (p, j) cache = none := by
        rw [hlook, if_neg (fun hc => hp hc.1)]
      rw [alookup_append_right _ _ _ hold, alookup_range_map,
        if_neg (fun hc => hp hc.1), if_neg (fun hc => hp hc.1)]

theorem cacheErase_spec (ss : B) (aDH bKP : Nat) (R : List Nat)
    (cache : List SkipEntry) (i : Nat)
    (hcache : CacheSpec ss aDH bKP R cache) (hlt : i < nrOf R) (hni : i ∉ R) :
    CacheSpec ss aDH bKP (R ++ [i]) (aerase (aDH, i) cache) := by
  obtain ⟨hnd, hlook⟩ := hcache
  have hnr : nrOf (R ++ [i]) = nrOf R := by
    rw [nrOf_append_singleton]; omega
  refine ⟨aerase_nodup_keys _ _ hnd, fun p j => ?_⟩
  have hmem : j ∉ R ++ [i] ↔ j ∉ R ∧ j ≠ i := by
    simp [List.mem_append]
  by_cases hk : ((p, j) : Nat × Nat) = (aDH, i)
  · obtain ⟨rfl, rfl⟩ : p = aDH ∧ j = i :=
      ⟨(Prod.mk.injEq _ _ _ _ ▸ hk).1, (Prod.mk.injEq _ _ _ _ ▸ hk).2⟩
    rw [alookup_aerase_self _ _ hnd]
    have hc : ¬ (p = p ∧ j < nrOf (R ++ [j]) ∧ j ∉ R ++ [j]) := fun hc =>
      (hmem.mp hc.2.2).2 rfl
    rw [if_neg hc]
  · rw [alookup_aerase_ne _ _ _ hk, hlook p j, hnr]
    by_cases hp : p = aDH
    · subst hp
      have hji : j ≠ i := fun hc => hk (by rw [hc])
      by_cases h1 : j < nrOf R ∧ j ∉ R
      · have hc1 : p = p ∧ j < nrOf R ∧ j ∉ R := ⟨rfl, h1.1, h1.2⟩
        have hc2 : p = p ∧ j < nrOf R ∧ j ∉ R ++ [i] := ⟨rfl, h1.1, hmem.mpr ⟨h1.2, hji⟩⟩
        rw [if_pos hc1, if_pos hc2]
      · have hc1 : ¬ (p = p ∧ j < nrOf R ∧ j ∉ R) := fun hc => h1 ⟨hc.2.1, hc.2.2⟩
        have hc2 : ¬ (p = p ∧ j < nrOf R ∧ j ∉ R ++ [i]) := fun hc =>
          h1 ⟨hc.2.1, (hmem.mp hc.2.2).1⟩
        rw [if_neg hc1, if_neg hc2]
    · have hc1 : ¬ (p = aDH ∧ j < nrOf R ∧ j ∉ R) := fun hc => hp hc.1
      have hc2 : ¬ (p = aDH ∧ j < nrOf R ∧ j ∉ R ++ [i]) := fun hc => hp hc.1
      rw [if_neg hc1, if_neg hc2]

theorem skipMessageKeys_spec (ss : B) (aDH bKP : Nat) (R : List Nat)
    (s : RatchetState) (i : Nat)
    (hCKr : s.CKr = some (sendCK ss aDH bKP (nrOf R))) (hNr : s.Nr = nrOf R)
    (hcache : CacheSpec ss aDH bKP R s.MKSKIPPED)
    (hge : nrOf R ≤ i) (hgap : i ≤ nrOf R + MAX_SKIP) :
    skipMessageKeys aDH i s =
      .ok { s with
            CKr := some (sendCK ss aDH bKP i), Nr := i,
            MKSKIPPED := s.MKSKIPPED ++
              ((List.range' (nrOf R) (i - nrOf R)).map fun t => ((aDH, t), mkAt ss aDH bKP t)) } := by
  obtain ⟨hnd, hlook⟩ := hcache
  have hfresh : ∀ j, nrOf R ≤ j → alookup (aDH, j) s.MKSKIPPED = none := by
    intro j hj
    rw [hlook aDH j]
    have h : ¬ (aDH = aDH ∧ j < nrOf R ∧ j ∉ R) := fun hc => by
      obtain ⟨_, h1, _⟩ := hc; omega
    rw [if_neg h]
  rw [skipMessageKeys, hCKr]
  simp only [hNr]
  rw [if_neg (show ¬ (nrOf R + MAX_SKIP < i) from by omega)]
  rw [skipChain_sendCK ss aDH bKP (i - nrOf R) (nrOf R) s.MKSKIPPED hfresh]
  have h2 : nrOf R + (i - nrOf R) = i := by omega
  rw [h2]

theorem decryptTail_spec (ss : B) (aDH bKP : Nat) (msgs : Nat → String)
    (R : List Nat) (s : RatchetState) (i : Nat)
    (hCKr : s.CKr = some (sendCK ss aDH bKP (nrOf R))) (hNr : s.Nr = nrOf R)
    (hcache : CacheSpec ss aDH bKP R s.MKSKIPPED)
    (hge : nrOf R ≤ i) (hgap : i ≤ nrOf R + MAX_SKIP) :
    decryptTail s (hdrAt aDH i) (ctAt ss aDH bKP msgs i) =
      ({ s with
          CKr := some (sendCK ss aDH bKP (i + 1)), Nr := i + 1,
          MKSKIPPED := s.MKSKIPPED ++
            ((List.range' (nrOf R) (i - nrOf R)).map fun t => ((aDH, t), mkAt ss aDH bKP t)) },
        .ok (msgs i)) := by
  rw [decryptTail]
  rw [show (hdrAt aDH i).dh = aDH from rfl, show (hdrAt aDH i).n = i from rfl]
  rw [skipMessageKeys_spec ss aDH bKP R s i hCKr hNr hcache hge hgap]
  simp only []
  rw [show (kdfCK (sendCK ss aDH bKP i)).chainKey = sendCK ss aDH bKP (i + 1) from rfl]
  rw [show (kdfCK (sendCK ss aDH bKP i)).messageKey = mkAt ss aDH bKP i from rfl]
  rw [show ctAt ss aDH bKP msgs i = aesEncrypt (mkAt ss aDH bKP i) (msgs i) from rfl]
  rw [aesDecrypt_aesEncrypt]

theorem initAlice_eq_aliceSt (ss : B) (aDH bKP : Nat) :
    initAlice ss bKP aDH = aliceSt ss aDH bKP 0 := rfl

theorem encrypt_aliceSt (ss : B) (aDH bKP : Nat) (msgs : Nat → String) (n : Nat) :
    encrypt (aliceSt ss aDH bKP n) (msgs n) =
      .ok (aliceSt ss aDH bKP (n + 1), hdrAt aDH n, ctAt ss aDH bKP msgs n) := rfl

theorem encryptList_spec (ss : B) (aDH bKP : Nat) (msgs : Nat → String) (c : Nat) :
    ∀ n : Nat,
      encryptList (aliceSt ss aDH bKP n) ((List.range' n c).map msgs) =
        .ok (aliceSt ss aDH bKP (n + c),
          (List.range' n c).map fun i => (hdrAt aDH i, ctAt ss aDH bKP msgs i)) := by
  induction c with
  | zero => intro n; simp [encryptList]
  | succ c ih =>
      intro n
      rw [List.range'_succ, List.map_cons, List.map_cons]
      rw [show encryptList (aliceSt ss aDH bKP n) (msgs n :: (List.range' (n + 1) c).map msgs) =
          (match encryptList (aliceSt ss aDH bKP (n + 1)) ((List.range' (n + 1) c).map msgs) with
           | .error e => .error e
           | .ok (s2, rest) =>
             .ok (s2, (hdrAt aDH n, ctAt ss aDH bKP msgs n) :: rest))
        from rfl]
      rw [ih (n + 1)]
      have h1 : n + 1 + c = n + (c + 1) := by omega
      rw [h1]

theorem decrypt_step (ss : B) (aDH bKP freshDH : Nat) (msgs : Nat → String)
    (R : List Nat) (s : RatchetState) (i : Nat)
    (hInv : BobInv ss aDH bKP freshDH R s) (hni : i ∉ R)
    (hgap : i ≤ nrOf R + MAX_SKIP) :
    ∃ s', decrypt freshDH s (hdrAt aDH i) (ctAt ss aDH bKP msgs i) = (s', .ok (msgs i)) ∧
      BobInv ss aDH bKP freshDH (R ++ [i]) s' := by
  rcases hInv with ⟨rfl, rfl⟩ | ⟨hR, hDHs, hDHr, hRK, hCKs, hCKr, hNs, hPN, hNr, hcache⟩
  · -- first delivery: the DH ratchet step fires, then the chain is skipped to i
    have hck : (kdfRK ss (performDH bKP aDH)).chainKey = sendCK ss aDH bKP 0 := by
      show (kdfRK ss (B.dhOut (bKP * aDH))).chainKey = (kdfRK ss (B.dhOut (aDH * bKP))).chainKey
      rw [Nat.mul_comm]
    have hstep : decrypt freshDH (initBob ss bKP) (hdrAt aDH i) (ctAt ss aDH bKP msgs i) =
        decryptTail
          { DHs := some freshDH, DHr := some aDH,
            RK := bobRK2 ss aDH bKP freshDH, CKs := some (bobCKs ss aDH bKP freshDH),
            CKr := some ((kdfRK ss (performDH bKP aDH)).chainKey),
            Ns := 0, Nr := 0, PN := 0, MKSKIPPED := [] }
          (hdrAt aDH i) (ctAt ss aDH bKP msgs i) := rfl
    rw [hstep, hck]
    have hnr0 : nrOf ([] : List Nat) = 0 := nrOf_nil
    rw [decryptTail_spec ss aDH bKP msgs []
      { DHs := some freshDH, DHr := some aDH,
        RK := bobRK2 ss aDH bKP freshDH, CKs := some (bobCKs ss aDH bKP freshDH),
        CKr := some (sendCK ss aDH bKP 0),
        Ns := 0, Nr := 0, PN := 0, MKSKIPPED := [] }
      i (by rw [hnr0]) (by rw [hnr0]) (CacheSpec_nil ss aDH bKP)
      (by rw [hnr0]; omega) (by rw [hnr0]; rw [nrOf_nil] at hgap; omega)]
    refine ⟨_, rfl, Or.inr ?_⟩
    have hnri : nrOf ([] ++ [i]) = i + 1 := by
      rw [nrOf_append_singleton, nrOf_nil]; omega
    refine ⟨by simp, rfl, rfl, rfl, rfl, ?_, rfl, rfl, ?_, ?_⟩
    · rw [hnri]
    · rw [hnri]
    · exact cacheAppend_spec ss aDH bKP [] [] i (CacheSpec_nil ss aDH bKP)
        (by rw [hnr0]; omega) (by simp)
  · -- steady state: either a cache hit or an in-chain skip forward
    by_cases hi : i < nrOf R
    · -- cache hit
      have hl : alookup (aDH, i) s.MKSKIPPED = some (mkAt ss aDH bKP i) := by
        rw [hcache.2, if_pos ⟨rfl, hi, hni⟩]
      have hstep : decrypt freshDH s (hdrAt aDH i) (ctAt ss aDH bKP msgs i) =
          ({ s with MKSKIPPED := aerase (aDH, i) s.MKSKIPPED }, Except.ok (msgs i)) := by
        simp only [decrypt, hdrAt, b642ab]
        rw [hl]
        show ({ s with MKSKIPPED := aerase (aDH, i) s.MKSKIPPED },
          aesDecrypt (mkAt ss aDH bKP i) (ctAt ss aDH bKP msgs i)) = _
        rw [show ctAt ss aDH bKP msgs i = aesEncrypt (mkAt ss aDH bKP i) (msgs i) from rfl]
        rw [aesDecrypt_aesEncrypt]
      refine ⟨_, hstep, Or.inr ?_⟩
      have hnri : nrOf (R ++ [i]) = nrOf R := by
        rw [nrOf_append_singleton]; omega
      refine ⟨by simp, hDHs, hDHr, hRK, hCKs, ?_, hNs, hPN, ?_, ?_⟩
      · rw [hnri]; exact hCKr
      · rw [hnri]; exact hNr
      · exact cacheErase_spec ss aDH bKP R s.MKSKIPPED i hcache hi hni
    · -- skip forward inside the chain
      push_neg at hi
      have hl : alookup (aDH, i) s.MKSKIPPED = none := by
        rw [hcache.2, if_neg (fun hc => by omega)]
      have hstep : decrypt freshDH s (hdrAt aDH i) (ctAt ss aDH bKP msgs i) =
          decryptTail s (hdrAt aDH i) (ctAt ss aDH bKP msgs i) := by
        simp only [decrypt, hdrAt, b642ab]
        rw [hl, hDHr]
        rw [if_pos rfl]
      rw [hstep, decryptTail_spec ss aDH bKP msgs R s i hCKr hNr hcache hi hgap]
      refine ⟨_, rfl, Or.inr ?_⟩
      have hnri : nrOf (R ++ [i]) = i + 1 := by
        rw [nrOf_append_singleton]; omega
      refine ⟨by simp, hDHs, hDHr, hRK, hCKs, ?_, hNs, hPN, ?_, ?_⟩
      · rw [hnri]
      · rw [hnri]
      · exact cacheAppend_spec ss aDH bKP R s.MKSKIPPED i hcache hi hni

theorem processList_spec (ss : B) (aDH bKP freshDH : Nat) (msgs : Nat → String) :
    ∀ (order R : List Nat) (s : RatchetState),
      BobInv ss aDH bKP freshDH R s →
      (∀ t ∈ order, t ∉ R) → order.Nodup →
      gapOKFrom (nrOf R) order = true →
      (processList freshDH s (order.map fun i => (hdrAt aDH i, ctAt ss aDH bKP msgs i))).2 =
          order.map (fun i => Except.ok (msgs i)) ∧
        BobInv ss aDH bKP freshDH (R ++ order)
          (processList freshDH s (order.map fun i => (hdrAt aDH i, ctAt ss aDH bKP msgs i))).1 := by
  intro order
  induction order with
  | nil =>
      intro R s hInv _ _ _
      constructor
      · rfl
      · rw [List.append_nil]; exact hInv
  | cons i rest ih =>
      intro R s hInv hdis hnd hgap
      have hgap1 : i ≤ nrOf R + MAX_SKIP := by
        by_cases h : i ≤ nrOf R + MAX_SKIP
        · exact h
        · rw [gapOKFrom, if_neg h] at hgap
          exact absurd hgap (by simp)
      have hgaprest : gapOKFrom (max (nrOf R) (i + 1)) rest = true := by
        rw [gapOKFrom, if_pos hgap1] at hgap
        exact hgap
      obtain ⟨s', hs', hInv'⟩ :=
        decrypt_step ss aDH bKP freshDH msgs R s i hInv (hdis i (by simp)) hgap1
      have hdis' : ∀ t ∈ rest, t ∉ R ++ [i] := by
        intro t ht
        rw [List.mem_append]
        rintro (hR | hi)
        · exact hdis t (by simp [ht]) hR
        · have : t = i := by simpa using hi
          exact (List.nodup_cons.mp hnd).1 (this ▸ ht)
      have hnd' : rest.Nodup := (List.nodup_cons.mp hnd).2
      have hgap' : gapOKFrom (nrOf (R ++ [i])) rest = true := by
        rw [nrOf_append_singleton]; exact hgaprest
      obtain ⟨hres, hinv2⟩ := ih (R ++ [i]) s' hInv' hdis' hnd' hgap'
      have hunfold : processList freshDH s
          ((i :: rest).map fun t => (hdrAt aDH t, ctAt ss aDH bKP msgs t)) =
          ((processList freshDH (decrypt freshDH s (hdrAt aDH i) (ctAt ss aDH bKP msgs i)).1
              (rest.map fun t => (hdrAt aDH t, ctAt ss aDH bKP msgs t))).1,
            (decrypt freshDH s (hdrAt aDH i) (ctAt ss aDH bKP msgs i)).2 ::
              (processList freshDH (decrypt freshDH s (hdrAt aDH i) (ctAt ss aDH bKP msgs i)).1
                (rest.map fun t => (hdrAt aDH t, ctAt ss aDH bKP msgs t))).2) := rfl
      rw [hunfold, hs']
      constructor
      · rw [List.map_cons]
        exact congrArg _ hres
      · rw [show R ++ i :: rest = (R ++ [i]) ++ rest by simp]
        exact hinv2

theorem decrypt_too_far (ss : B) (aDH bKP freshDH : Nat)
    (R : List Nat) (s : RatchetState) (j : Nat) (c : B)
    (hInv : BobInv ss aDH bKP freshDH R s) (hfar : nrOf R + MAX_SKIP < j) :
    (decrypt freshDH s (hdrAt aDH j) c).2 = .error .tooManySkipped := by
  rcases hInv with ⟨rfl, rfl⟩ | ⟨hR, hDHs, hDHr, hRK, hCKs, hCKr, hNs, hPN, hNr, hcache⟩
  · -- from the Bob-initial state the ratchet step fires first, then the skip refuses
    have hstep : decrypt freshDH (initBob ss bKP) (hdrAt aDH j) c =
        decryptTail
          { DHs := some freshDH, DHr := some aDH,
            RK := bobRK2 ss aDH bKP freshDH, CKs := some (bobCKs ss aDH bKP freshDH),
            CKr := some ((kdfRK ss (performDH bKP aDH)).chainKey),
            Ns := 0, Nr := 0, PN := 0, MKSKIPPED := [] }
          (hdrAt aDH j) (b642ab c) := rfl
    rw [hstep, decryptTail]
    rw [show skipMessageKeys (hdrAt aDH j).dh (hdrAt aDH j).n
        { DHs := some freshDH, DHr := some aDH,
          RK := bobRK2 ss aDH bKP freshDH, CKs := some (bobCKs ss aDH bKP freshDH),
          CKr := some ((kdfRK ss (performDH bKP aDH)).chainKey),
          Ns := 0, Nr := 0, PN := 0, MKSKIPPED := [] } =
        (if 0 + MAX_SKIP < j then Except.error RatchetError.tooManySkipped
         else Except.ok
          { DHs := some freshDH, DHr := some aDH,
            RK := bobRK2 ss aDH bKP freshDH, CKs := some (bobCKs ss aDH bKP freshDH),
            CKr := some (skipChain aDH (j - 0) ((kdfRK ss (performDH bKP aDH)).chainKey) 0 []).CKr,
            Ns := 0, Nr := (skipChain aDH (j - 0) ((kdfRK ss (performDH bKP aDH)).chainKey) 0 []).Nr,
            PN := 0,
            MKSKIPPED := (skipChain aDH (j - 0) ((kdfRK ss (performDH bKP aDH)).chainKey) 0 []).MKSKIPPED })
      from rfl]
    rw [if_pos (show 0 + MAX_SKIP < j from by rw [nrOf_nil] at hfar; omega)]
  · -- steady state: the cache misses and the in-chain skip refuses before mutating
    have hl : alookup (aDH, j) s.MKSKIPPED = none := by
      rw [hcache.2, if_neg (fun hc => by obtain ⟨_, h1, _⟩ := hc; omega)]
    have hstep : decrypt freshDH s (hdrAt aDH j) c =
        decryptTail s (hdrAt aDH j) (b642ab c) := by
      simp only [decrypt, hdrAt]
      rw [hl, hDHr]
      rw [if_pos rfl]
    rw [hstep, decryptTail]
    rw [show (hdrAt aDH j).dh = aDH from rfl, show (hdrAt aDH j).n = j from rfl]
    rw [skipMessageKeys, hCKr]
    simp only [if_pos (show s.Nr + MAX_SKIP < j from by rw [hNr]; omega)]

/-- Helper packaging the deliveries of the out-of-order theorem. -/
def deliveriesOf (ss : B) (aDH bKP : Nat) (msgs : Nat → String) (order : List Nat) :
    List (MessageHeader × B) :=
  order.map fun i => (hdrAt aDH i, ctAt ss aDH bKP msgs i)

/-- C1: for a pair of ratchet sessions initialized from the same X3DH shared
secret (`initAlice` for the sender, `initBob` for the peer), every message
the sender's `encrypt` emits decrypts on the peer to the original plaintext
byte-for-byte, for any delivery permutation in which each received message's
gap from the receiver's current `Nr` within the chain is at most
`MAX_SKIP = 256` (`gapOKFrom`): the sender's `k` encrypts emit exactly the
headers/ciphertexts `(hdrAt i, ctAt i)`, and the receiver processing any
admissible delivery order returns `Except.ok (msgs i)` for every delivered
`i`; while a message whose gap from the current `Nr` exceeds 256 fails with
the `TooManySkipped` error that the orchestrator surfaces as
`Undecryptable`. -/
theorem ratchet_out_of_order_delivery (ss : B) (aDH bKP freshDH : Nat)
    (msgs : Nat → String) (k : Nat) (order : List Nat)
    (hmem : ∀ i ∈ order, i < k) (hnd : order.Nodup)
    (hgap : gapOKFrom 0 order = true) :
    encryptList (initAlice ss bKP aDH) ((List.range k).map msgs) =
        .ok (aliceSt ss aDH bKP k,
          (List.range k).map fun i => (hdrAt aDH i, ctAt ss aDH bKP msgs i)) ∧
    (processList freshDH (initBob ss bKP) (deliveriesOf ss aDH bKP msgs order)).2 =
        order.map (fun i => Except.ok (msgs i)) ∧
    ∀ j c, nrOf order + MAX_SKIP < j →
      (decrypt freshDH
          (processList freshDH (initBob ss bKP) (deliveriesOf ss aDH bKP msgs order)).1
          (hdrAt aDH j) c).2 = .error .tooManySkipped := by
  have hgap0 : gapOKFrom (nrOf []) order = true := by rw [nrOf_nil]; exact hgap
  obtain ⟨hres, hinv⟩ := processList_spec ss aDH bKP freshDH msgs order [] (initBob ss bKP)
    (Or.inl ⟨rfl, rfl⟩) (by simp) hnd hgap0
  rw [List.nil_append] at hinv
  refine ⟨?_, hres, ?_⟩
  · have he := encryptList_spec ss aDH bKP msgs k 0
    rw [Nat.zero_add] at he
    rw [initAlice_eq_aliceSt, List.range_eq_range']
    exact he
  · intro j c hj
    exact decrypt_too_far ss aDH bKP freshDH order _ j c hinv hj

theorem ratchet_out_of_order_delivery_witness :
    (processList 5 (initBob (B.raw [1]) 3)
        (deliveriesOf (B.raw [1]) 2 3 (fun i => Nat.repr i) [2, 0, 3, 1])).2 =
      [2, 0, 3, 1].map (fun i => Except.ok (Nat.repr i)) ∧
    (decrypt 5
        (processList 5 (initBob (B.raw [1]) 3)
          (deliveriesOf (B.raw [1]) 2 3 (fun i => Nat.repr i) [2, 0, 3, 1])).1
        (hdrAt 2 261) (B.raw [])).2 = .error .tooManySkipped :=
  ⟨(ratchet_out_of_order_delivery (B.raw [1]) 2 3 5 (fun i => Nat.repr i) 4 [2, 0, 3, 1]
      (by decide) (by decide) (by decide)).2.1,
   (ratchet_out_of_order_delivery (B.raw [1]) 2 3 5 (fun i => Nat.repr i) 4 [2, 0, 3, 1]
      (by decide) (by decide) (by decide)).2.2 261 (B.raw []) (by decide)⟩

/-- C2: the initiator's `initiateX3DH` and the responder's `completeX3DH`
compute byte-identical shared secrets when given corresponding key material
(the responder holds the private halves of the bundle's identity, signed
prekey and optional one-time prekey; the initiator's identity and ephemeral
public keys are echoed to the responder), both with a one-time prekey (four
DH values concatenated) and without one (three DH values). -/
theorem x3dh_shared_secret_agreement (aliceIdentity ephemeral bobIdentity bobSignedPre : Nat)
    (spkId : Nat) (spkSig : B) (otp : Option BundleOneTimePreKey) :
    (initiateX3DH aliceIdentity ephemeral
      { identityKey := bobIdentity,
        signedPreKey := { keyId := spkId, publicKey := bobSignedPre, signature := spkSig },
        oneTimePreKey := otp }).sharedSecret =
      completeX3DH bobIdentity bobSignedPre (otp.map fun o => o.publicKey)
        aliceIdentity ephemeral := by
  cases otp with
  | none => simp [initiateX3DH, completeX3DH, performDH, Nat.mul_comm]
  | some o => simp [initiateX3DH, completeX3DH, performDH, Nat.mul_comm]

/-- C7: for any live ratchet whose `DHs` pair is present (the only states the
TS `serialize` accepts — it dereferences `this.DHs!`),
`deserialize(serialize(R))` restores exactly the state of `R` — including
the skipped-key cache, counters, root key, chain keys and both DH keys — and
therefore behaves identically to `R` on every subsequent `encrypt` and
`decrypt` call. -/
theorem serialize_deserialize_roundtrip (s : RatchetState) (dhs : Nat)
    (h : s.DHs = some dhs) :
    ∃ st, serialize s = some st ∧ deserialize st = s ∧
      (∀ pt, encrypt (deserialize st) pt = encrypt s pt) ∧
      (∀ freshDH hd c, decrypt freshDH (deserialize st) hd c = decrypt freshDH s hd c) := by
  obtain ⟨sDHs, sDHr, sRK, sCKs, sCKr, sNs, sNr, sPN, sMK⟩ := s
  simp only [RatchetState.mk.injEq] at h
  subst h
  have hCKs : (sCKs.map ab2b64).map b642ab = sCKs := by cases sCKs <;> rfl
  have hCKr : (sCKr.map ab2b64).map b642ab = sCKr := by cases sCKr <;> rfl
  have hlist : ((sMK.map fun e => (e.1, ab2b64 e.2)).map fun e => (e.1, b642ab e.2)) = sMK := by
    induction sMK with
    | nil => rfl
    | cons e es ih => simp [ih, ab2b64, b642ab]
  have hrt : deserialize
      { DHs := dhs, DHr := sDHr, RK := ab2b64 sRK,
        CKs := sCKs.map ab2b64, CKr := sCKr.map ab2b64,
        Ns := sNs, Nr := sNr, PN := sPN,
        MKSKIPPED := sMK.map fun e => (e.1, ab2b64 e.2) } =
      ⟨some dhs, sDHr, sRK, sCKs, sCKr, sNs, sNr, sPN, sMK⟩ := by
    show (⟨some dhs, sDHr, sRK, (sCKs.map ab2b64).map b642ab, (sCKr.map ab2b64).map b642ab,
        sNs, sNr, sPN, (sMK.map fun e => (e.1, ab2b64 e.2)).map fun e => (e.1, b642ab e.2)⟩ :
      RatchetState) = _
    rw [hCKs, hCKr, hlist]
  exact ⟨_, rfl, hrt, fun pt => by rw [hrt], fun freshDH hd c => by rw [hrt]⟩

theorem serialize_deserialize_roundtrip_witness :
    ∃ st, serialize (initBob (B.raw [1]) 4) = some st ∧
      deserialize st = initBob (B.raw [1]) 4 ∧
      (∀ pt, encrypt (deserialize st) pt = encrypt (initBob (B.raw [1]) 4) pt) ∧
      (∀ freshDH hd c, decrypt freshDH (deserialize st) hd c =
        decrypt freshDH (initBob (B.raw [1]) 4) hd c) :=
  serialize_deserialize_roundtrip (initBob (B.raw [1]) 4) 4 rfl

/-- C10: when `decrypt` is called with a header whose `(dh, n)` hits the
skipped-key cache, the call removes exactly that cache entry — every other
field of the state (`RK`, `CKs`, `CKr`, `Ns`, `Nr`, `PN`, `DHs`, `DHr`) and
every other cache entry is unchanged — and the cached message key is the one
used for AEAD decryption of the (base64-decoded) ciphertext. -/
theorem decrypt_cached_entry_frame (freshDH : Nat) (s : RatchetState)
    (hd : MessageHeader) (c mk : B)
    (hmk : alookup (hd.dh, hd.n) s.MKSKIPPED = some mk) :
    decrypt freshDH s hd c =
      ({ s with MKSKIPPED := aerase (hd.dh, hd.n) s.MKSKIPPED },
        aesDecrypt mk (b642ab c)) ∧
    (∀ k, k ≠ (hd.dh, hd.n) →
      alookup k (aerase (hd.dh, hd.n) s.MKSKIPPED) = alookup k s.MKSKIPPED) ∧
    ((s.MKSKIPPED.map Prod.fst).Nodup →
      alookup (hd.dh, hd.n) (aerase (hd.dh, hd.n) s.MKSKIPPED) = none) := by
  refine ⟨?_, ?_, ?_⟩
  · simp only [decrypt]
    rw [hmk]
  · intro k hk
    exact alookup_aerase_ne _ _ _ hk
  · intro hnd
    exact alookup_aerase_self _ _ hnd

theorem decrypt_cached_entry_frame_witness :
    decrypt 1
        { DHs := some 1, DHr := some 2, RK := B.raw [], CKs := none, CKr := none,
          Ns := 0, Nr := 0, PN := 0,
          MKSKIPPED := [((2, 0), B.raw [7]), ((2, 1), B.raw [8])] }
        { dh := 2, pn := 0, n := 0 } (B.raw [9]) =
      ({ DHs := some 1, DHr := some 2, RK := B.raw [], CKs := none, CKr := none,
          Ns := 0, Nr := 0, PN := 0, MKSKIPPED := [((2, 1), B.raw [8])] },
        aesDecrypt (B.raw [7]) (b642ab (B.raw [9]))) ∧
    alookup (2, 1) [((2, 1), B.raw [8])] = some (B.raw [8]) ∧
    alookup (2, 0) [((2, 1), B.raw [8])] = none :=
  ⟨(decrypt_cached_entry_frame 1
      { DHs := some 1, DHr := some 2, RK := B.raw [], CKs := none, CKr := none,
        Ns := 0, Nr := 0, PN := 0,
        MKSKIPPED := [((2, 0), B.raw [7]), ((2, 1), B.raw [8])] }
      { dh := 2, pn := 0, n := 0 } (B.raw [9]) (B.raw [7]) (by decide)).1,
   (decrypt_cached_entry_frame 1
      { DHs := some 1, DHr := some 2, RK := B.raw [], CKs := none, CKr := none,
        Ns := 0, Nr := 0, PN := 0,
        MKSKIPPED := [((2, 0), B.raw [7]), ((2, 1), B.raw [8])] }
      { dh := 2, pn := 0, n := 0 } (B.raw [9]) (B.raw [7]) (by decide)).2.1 (2, 1) (by decide),
   (decrypt_cached_entry_frame 1
      { DHs := some 1, DHr := some 2, RK := B.raw [], CKs := none, CKr := none,
        Ns := 0, Nr := 0, PN := 0,
        MKSKIPPED := [((2, 0), B.raw [7]), ((2, 1), B.raw [8])] }
      { dh := 2, pn := 0, n := 0 } (B.raw [9]) (B.raw [7]) (by decide)).2.2 (by decide)⟩

theorem padStart_repr_length (n : Nat) (h : n < 100000) :
    (padStart (Nat.repr n) 5 '0').length = 5 := by
  have hle : (Nat.repr n).length ≤ 5 :=
    Nat.repr_length n 5 (by norm_num) (by norm_num at h ⊢; omega)
  rw [padStart, String.length_append]
  rw [show (String.mk (List.replicate (5 - (Nat.repr n).length) '0')).length =
    (List.replicate (5 - (Nat.repr n).length) '0').length from rfl]
  rw [List.length_replicate]
  omega

theorem safetyGroups_len32 (bytes : List Nat) (hlen : bytes.length = 32) :
    safetyGroups bytes 30 0 =
      [padStart (Nat.repr (sfWord32 bytes 0 % 100000)) 5 '0',
       padStart (Nat.repr (sfWord32 bytes 5 % 100000)) 5 '0',
       padStart (Nat.repr (sfWord32 bytes 10 % 100000)) 5 '0',
       padStart (Nat.repr (sfWord32 bytes 15 % 100000)) 5 '0',
       padStart (Nat.repr (sfWord32 bytes 20 % 100000)) 5 '0',
       padStart (Nat.repr (sfWord32 bytes 25 % 100000)) 5 '0'] := by
  simp [safetyGroups, hlen]

theorem generateSafetyNumber_groups (sha256 : List Nat → List Nat)
    (hlen : ∀ bs, (sha256 bs).length = 32) (a b : String) :
    ∃ g : List String, g.length = 6 ∧
      generateSafetyNumber sha256 a b = joinSpace g ∧
      ∀ x ∈ g, x.length = 5 ∧ ∃ v : Nat, v < 100000 ∧ x = padStart (Nat.repr v) 5 '0' := by
  rw [generateSafetyNumber]
  refine ⟨_, ?_, congrArg joinSpace (safetyGroups_len32 _ (hlen _)), ?_⟩
  · rfl
  · intro x hx
    simp only [List.mem_cons, List.not_mem_nil, or_false] at hx
    rcases hx with rfl | rfl | rfl | rfl | rfl | rfl <;>
      exact ⟨padStart_repr_length _ (Nat.mod_lt _ (by norm_num)),
        _, Nat.mod_lt _ (by norm_num), rfl⟩

theorem joinSpace_six_length (g0 g1 g2 g3 g4 g5 : String)
    (h0 : g0.length = 5) (h1 : g1.length = 5) (h2 : g2.length = 5)
    (h3 : g3.length = 5) (h4 : g4.length = 5) (h5 : g5.length = 5) :
    (joinSpace [g0, g1, g2, g3, g4, g5]).length = 35 := by
  simp only [joinSpace, String.length_append, h0, h1, h2, h3, h4, h5]
  rfl

/-- C9: the safety-number derivation is commutative —
`generateSafetyNumber A B = generateSafetyNumber B A` for any two identity
keys (the keys enter only through their injective JSON serialization, taken
here as the inputs) — and, for a SHA-256 digest function (32-byte output),
the result both parties compute for a given identity pair is a 35-character
string of six 5-digit decimal groups separated by single spaces. -/
theorem generateSafetyNumber_commutative_format (sha256 : List Nat → List Nat)
    (hlen : ∀ bs, (sha256 bs).length = 32) (a b : String) :
    generateSafetyNumber sha256 a b = generateSafetyNumber sha256 b a ∧
    (generateSafetyNumber sha256 a b).length = 35 ∧
    ∃ g : List String, g.length = 6 ∧
      generateSafetyNumber sha256 a b = joinSpace g ∧
      ∀ x ∈ g, x.length = 5 ∧ ∃ v : Nat, v < 100000 ∧ x = padStart (Nat.repr v) 5 '0' := by
  refine ⟨?_, ?_, generateSafetyNumber_groups sha256 hlen a b⟩
  · rcases lt_trichotomy a b with hab | hab | hab
    · rw [generateSafetyNumber, generateSafetyNumber, if_pos hab, if_neg (asymm hab)]
    · rw [hab]
    · rw [generateSafetyNumber, generateSafetyNumber, if_neg (asymm hab), if_pos hab]
  · rw [generateSafetyNumber]
    rw [congrArg joinSpace (safetyGroups_len32 _ (hlen _))]
    exact joinSpace_six_length _ _ _ _ _ _
      (padStart_repr_length _ (Nat.mod_lt _ (by norm_num)))
      (padStart_repr_length _ (Nat.mod_lt _ (by norm_num)))
      (padStart_repr_length _ (Nat.mod_lt _ (by norm_num)))
      (padStart_repr_length _ (Nat.mod_lt _ (by norm_num)))
      (padStart_repr_length _ (Nat.mod_lt _ (by norm_num)))
      (padStart_repr_length _ (Nat.mod_lt _ (by norm_num)))

theorem generateSafetyNumber_commutative_format_witness :
    generateSafetyNumber (fun _ => List.replicate 32 0) ("ka") ("kb") =
      generateSafetyNumber (fun _ => List.replicate 32 0) ("kb") ("ka") ∧
    (generateSafetyNumber (fun _ => List.replicate 32 0) ("ka") ("kb")).length = 35 :=
  ⟨(generateSafetyNumber_commutative_format (fun _ => List.replicate 32 0)
      (fun _ => by simp) ("ka") ("kb")).1,
   (generateSafetyNumber_commutative_format (fun _ => List.replicate 32 0)
      (fun _ => by simp) ("ka") ("kb")).2.1⟩

/-! ### Fixtures for the bundle-verification bug (C3) -/

/-- A directory response whose signed-prekey signature is garbage (the raw
byte 0 is not an ECDSA signature of anything). -/
def c3dir : DirectoryEnv :=
  { identityKeyRow := some 11,
    signedPreKeyRow := some { keyId := 1, publicKey := 12, signature := B.raw [0] },
    claimedOneTimePreKey := none }

/-- The initiator's local store (identity pair 21, signing pair 22). -/
def c3store : LocalStore :=
  { identity := some { keyPair := 21, signingKeyPair := 22 },
    signedPreKeys := [], oneTimePreKeys := [] }

/-- C3 (evidence for the code bug): the claim says `fetchPreKeyBundle`
verifies the bundle's signed-prekey signature and `initiateSession` refuses
(`BundleInvalid`) when it does not verify. The code contains no verification
call at all: for a bundle whose signature verifies under no signing key
whatsoever, `fetchPreKeyBundle` returns the bundle and `initiateSession`
succeeds, installing a session. -/
theorem initiateSession_accepts_unverifiable_bundle :
    (∀ signingPub : Nat,
      verifySignature signingPub (signedPreKeyData 12) (B.raw [0]) = false) ∧
    fetchPreKeyBundle c3dir =
      some { identityKey := 11,
             signedPreKey := { keyId := 1, publicKey := 12, signature := B.raw [0] },
             oneTimePreKey := none } ∧
    (initiateSession c3store c3dir 31 32).isOk = true := by
  refine ⟨fun signingPub => ?_, rfl, rfl⟩
  simp [verifySignature, signedPreKeyData]

/-! ### Fixtures for the missing one-time-prekey bug (C4) -/

/-- The bundle Alice fetched: Bob's identity 21, signed prekey 23, one-time
prekey 24 with id 42. -/
def c4bundle : PreKeyBundle :=
  { identityKey := 21,
    signedPreKey := { keyId := 1, publicKey := 23, signature := B.raw [0] },
    oneTimePreKey := some { keyId := 42, publicKey := 24 } }

/-- Alice's X3DH run against the bundle (identity 11, ephemeral 31). -/
def c4x3dh : X3DHInitResult := initiateX3DH 11 31 c4bundle

/-- Alice's ratchet after `initAlice` (first sending pair 32). -/
def c4alice : RatchetState := initAlice c4x3dh.sharedSecret 23 32

/-- Alice's first envelope content. -/
def c4enc : Except RatchetError (RatchetState × MessageHeader × B) :=
  encrypt c4alice ("hi")

/-- The first `SignalMessage` of the session, carrying the `x3dh` preamble
that references one-time prekey id 42. -/
def c4msg : SignalMessage :=
  { header := match c4enc with
      | .ok (_, hd, _) => hd
      | .error _ => { dh := 0, pn := 0, n := 0 },
    ciphertext := match c4enc with
      | .ok (_, _, c) => c
      | .error _ => B.raw [],
    x3dh := some { identityKey := 11, ephemeralKey := 31, oneTimePreKeyId := some 42 } }

/-- Bob's local store: identity and signed prekey present, but one-time
prekey 42 not present locally. -/
def c4bobStore : LocalStore :=
  { identity := some { keyPair := 21, signingKeyPair := 22 },
    signedPreKeys := [{ keyId := 1, keyPair := 23, signature := B.raw [0] }],
    oneTimePreKeys := [] }

/-- Bob's `decryptMessage` environment for Alice's first envelope. -/
def c4env : DecryptEnv :=
  { parsed := some (.signalMsg c4msg), cachedSession := none, storedSession := none,
    latestSignedPreKeyId := some 1, store := c4bobStore, freshDH := 33 }

/-- C4 (evidence for the code bug): when the envelope's `x3dh` preamble
references a one-time prekey id that is not in the local store, the claim
says session completion must fail with no session installed. Instead
`completeSession` silently completes X3DH *without* the fourth DH value and
installs a Bob-initial ratchet; the responder's shared secret differs from
the initiator's (who used DH4), so the envelope is reported undecryptable —
but a session built on the wrong secret is now cached for the
conversation. -/
theorem completeSession_missing_otpk_proceeds :
    completeSession (some 1) c4bobStore c4msg =
      .ok (c4bobStore, initBob (completeX3DH 21 23 none 11 31) 23) ∧
    c4x3dh.sharedSecret ≠ completeX3DH 21 23 none 11 31 ∧
    (decryptMessage c4env ("raw")).result = UNDECRYPTABLE_MSG ∧
    (decryptMessage c4env ("raw")).session =
      some ((decrypt 33 (initBob (completeX3DH 21 23 none 11 31) 23)
        c4msg.header c4msg.ciphertext).1) := by
  refine ⟨rfl, by decide, by decide, by decide⟩

/-- C5 counterexample: a decrypt that fails with an AEAD authentication
error has already rolled the ratchet forward. Bob (fresh `initBob`) receives
a first message whose ciphertext was encrypted under an unrelated key: the
DH ratchet step and the receiving-chain advance happen before the AEAD call,
so the call returns the authentication error with `Nr` already incremented
to 1 and the whole state changed — contradicting the claim that after a
failed call the ratchet state equals its state before the call. -/
theorem decrypt_authfail_rolls_forward :
    (decrypt 7 (initBob (B.raw [1]) 5) { dh := 3, pn := 0, n := 0 }
        (aesEncrypt (B.raw [9]) ("x"))).2 = .error .authFail ∧
    (decrypt 7 (initBob (B.raw [1]) 5) { dh := 3, pn := 0, n := 0 }
        (aesEncrypt (B.raw [9]) ("x"))).1.Nr = 1 ∧
    (decrypt 7 (initBob (B.raw [1]) 5) { dh := 3, pn := 0, n := 0 }
        (aesEncrypt (B.raw [9]) ("x"))).1 ≠ initBob (B.raw [1]) 5 := by
  decide

/-- C5 (amended): what actually holds. (1) `TooManySkipped` raised when no
DH ratchet step is required (header.dh equals the current remote key, cache
miss) is thrown before any mutation, so the state is returned exactly
unchanged. (2) The orchestrator persists the session only after a
successful ratchet decrypt: on any ratchet failure `decryptMessage` returns
the undecryptable placeholder with `persisted = none` — though the live
in-memory ratchet object has been mutated in place (see the
counterexample). -/
theorem decrypt_failure_state_semantics (freshDH : Nat) (s : RatchetState)
    (hd : MessageHeader) (c ckr : B) (env : DecryptEnv) (m : SignalMessage)
    (r : RatchetState) (estr : String) :
    (s.DHr = some hd.dh → alookup (hd.dh, hd.n) s.MKSKIPPED = none →
      s.CKr = some ckr → s.Nr + MAX_SKIP < hd.n →
      decrypt freshDH s hd c = (s, .error .tooManySkipped)) ∧
    (env.parsed = some (.signalMsg m) → env.cachedSession = some r →
      (decrypt env.freshDH r m.header m.ciphertext).2.isOk = false →
      decryptMessage env estr =
        ⟨UNDECRYPTABLE_MSG, some (decrypt env.freshDH r m.header m.ciphertext).1,
          none, env.store⟩) := by
  constructor
  · intro hDHr hlook hCKr hfar
    simp only [decrypt]
    rw [hlook, hDHr, if_pos rfl, decryptTail, skipMessageKeys, hCKr]
    simp only [if_pos hfar]
  · intro hparsed hcached hfail
    rw [decryptMessage, hparsed]
    simp only [hcached]
    rcases hres : (decrypt env.freshDH r m.header m.ciphertext).2 with e | pt
    · simp only [hres]
    · rw [hres] at hfail
      simp [Except.isOk, Except.toBool] at hfail

/-- C5 fixture: a steady-state ratchet about to receive a too-far message in
its current chain. -/
def c5steady : RatchetState :=
  { DHs := some 1, DHr := some 2, RK := B.raw [], CKs := none,
    CKr := some (B.raw [4]), Ns := 0, Nr := 0, PN := 0, MKSKIPPED := [] }

/-- C5 fixture: a cached session whose next envelope fails authentication. -/
def c5msg : SignalMessage :=
  { header := { dh := 3, pn := 0, n := 0 },
    ciphertext := aesEncrypt (B.raw [9]) ("x"), x3dh := none }

/-- C5 fixture: the orchestrator environment delivering `c5msg` to a cached
session. -/
def c5env : DecryptEnv :=
  { parsed := some (.signalMsg c5msg), cachedSession := some (initBob (B.raw [1]) 5),
    storedSession := none, latestSignedPreKeyId := none,
    store := { identity := none, signedPreKeys := [], oneTimePreKeys := [] },
    freshDH := 7 }

theorem decrypt_failure_state_semantics_witness :
    decrypt 7 c5steady { dh := 2, pn := 0, n := 300 } (B.raw []) =
      (c5steady, .error .tooManySkipped) ∧
    decryptMessage c5env ("e") =
      ⟨UNDECRYPTABLE_MSG,
        some (decrypt 7 (initBob (B.raw [1]) 5) c5msg.header c5msg.ciphertext).1,
        none, { identity := none, signedPreKeys := [], oneTimePreKeys := [] }⟩ :=
  ⟨(decrypt_failure_state_semantics 7 c5steady { dh := 2, pn := 0, n := 300 }
      (B.raw []) (B.raw [4]) c5env c5msg (initBob (B.raw [1]) 5) ("e")).1
      rfl rfl rfl (by decide),
   (decrypt_failure_state_semantics 7 c5steady { dh := 2, pn := 0, n := 300 }
      (B.raw []) (B.raw [4]) c5env c5msg (initBob (B.raw [1]) 5) ("e")).2
      rfl rfl (by decide)⟩

/-- C8 fixture: the local store of an orchestrator receiving a non-protocol
string. -/
def c8store : LocalStore := { identity := none, signedPreKeys := [], oneTimePreKeys := [] }

/-- C8 fixture: `JSON.parse("hello")` throws, so the parse outcome is
`none`. -/
def c8envNotJson : DecryptEnv :=
  { parsed := none, cachedSession := none, storedSession := none,
    latestSignedPreKeyId := none, store := c8store, freshDH := 0 }

/-- C8 fixture: a string that parses as JSON but carries no `v = 2` (for
example `"{}"`). -/
def c8envOther : DecryptEnv :=
  { parsed := some .other, cachedSession := none, storedSession := none,
    latestSignedPreKeyId := none, store := c8store, freshDH := 0 }

/-- C8 counterexample: the claim says every input that is not a protocol
ciphertext — including inputs that are not JSON at all — is passed through
unchanged. But `JSON.parse` runs inside the `try`, so a non-JSON input
(`"hello"`) lands in the `catch` and is reported with the undecryptable
placeholder instead of being returned unchanged. -/
theorem decryptMessage_not_json_not_passthrough :
    (decryptMessage c8envNotJson ("hello")).result ≠ "hello" ∧
    (decryptMessage c8envNotJson ("hello")).result = UNDECRYPTABLE_MSG := by
  decide

/-- C8 (amended): inputs that parse as JSON with `v ≠ 2` are passed through
unchanged with no state change (distinguishing `NotEncrypted` from
`Undecryptable`); inputs that are not JSON at all are caught by the
`try`/`catch` and reported with the undecryptable placeholder, also with no
state change. -/
theorem decryptMessage_nonSignal_semantics (env : DecryptEnv) (estr : String) :
    (env.parsed = some .other →
      decryptMessage env estr = ⟨estr, env.cachedSession, none, env.store⟩) ∧
    (env.parsed = none →
      decryptMessage env estr = ⟨UNDECRYPTABLE_MSG, env.cachedSession, none, env.store⟩) := by
  constructor
  · intro h
    rw [decryptMessage, h]
  · intro h
    rw [decryptMessage, h]

theorem decryptMessage_nonSignal_semantics_witness :
    decryptMessage c8envOther ("x") = ⟨"x", none, none, c8store⟩ ∧
    decryptMessage c8envNotJson ("hello2") = ⟨UNDECRYPTABLE_MSG, none, none, c8store⟩ :=
  ⟨(decryptMessage_nonSignal_semantics c8envOther ("x")).1 rfl,
   (decryptMessage_nonSignal_semantics c8envNotJson ("hello2")).2 rfl⟩

/-! ### Fixtures for the skipped-cache bound counterexample (C6) -/

/-- C6 fixture: the shared secret of the counterexample session. -/
def c6ss : B := B.raw [1]

/-- C6 fixture: the plaintext stream. -/
def c6ms : Nat → String := fun _ => "m"

/-- C6 fixture: Bob's state after receiving message 256 first: 256 skipped
keys (positions 0..255) are cached and `Nr = 257`. -/
def c6S1 : RatchetState :=
  { DHs := some 5, DHr := some 2, RK := bobRK2 c6ss 2 3 5,
    CKs := some (bobCKs c6ss 2 3 5), CKr := some (sendCK c6ss 2 3 257),
    Ns := 0, Nr := 257, PN := 0,
    MKSKIPPED := [] ++ ((List.range' 0 256).map fun t => ((2, t), mkAt c6ss 2 3 t)) }

/-- C6 fixture: Bob's state after then receiving message 513: 256 more
skipped keys (positions 257..512) are cached, 512 in total, all in the one
receiving chain of remote key 2. -/
def c6S2 : RatchetState :=
  { c6S1 with
    CKr := some (sendCK c6ss 2 3 514), Nr := 514,
    MKSKIPPED := c6S1.MKSKIPPED ++
      ((List.range' 257 256).map fun t => ((2, t), mkAt c6ss 2 3 t)) }

/-- C6 counterexample: the claim's invariant — at most `MAX_SKIP = 256`
cache entries per receiving chain and cumulative skips within one chain
bounded by 256 — is violated by a benign run: Bob receives messages 256 and
513 of one chain (each delivery's gap from the current `Nr` is exactly 256,
so both succeed), after which the one chain's skipped-key cache holds 512
entries, every one keyed by the same remote public key. -/
theorem skipped_cache_exceeds_MAX_SKIP :
    processList 5 (initBob c6ss 3) (deliveriesOf c6ss 2 3 c6ms [256, 513]) =
      (c6S2, [.ok ("m"), .ok ("m")]) ∧
    c6S2.MKSKIPPED.length = 512 ∧
    (∀ e ∈ c6S2.MKSKIPPED, e.1.1 = 2) ∧
    MAX_SKIP < 512 := by
  have h1 : decrypt 5 (initBob c6ss 3) (hdrAt 2 256) (ctAt c6ss 2 3 c6ms 256) =
      (c6S1, .ok ("m")) := by
    have hstep : decrypt 5 (initBob c6ss 3) (hdrAt 2 256) (ctAt c6ss 2 3 c6ms 256) =
        decryptTail
          { DHs := some 5, DHr := some 2, RK := bobRK2 c6ss 2 3 5,
            CKs := some (bobCKs c6ss 2 3 5), CKr := some (sendCK c6ss 2 3 0),
            Ns := 0, Nr := 0, PN := 0, MKSKIPPED := [] }
          (hdrAt 2 256) (ctAt c6ss 2 3 c6ms 256) := rfl
    rw [hstep]
    rw [decryptTail_spec c6ss 2 3 c6ms []
      { DHs := some 5, DHr := some 2, RK := bobRK2 c6ss 2 3 5,
        CKs := some (bobCKs c6ss 2 3 5), CKr := some (sendCK c6ss 2 3 0),
        Ns := 0, Nr := 0, PN := 0, MKSKIPPED := [] }
      256 rfl rfl (CacheSpec_nil c6ss 2 3) (by decide) (by decide)]
    rfl
  have hcache1 : CacheSpec c6ss 2 3 [256] c6S1.MKSKIPPED := by
    have h := cacheAppend_spec c6ss 2 3 [] [] 256 (CacheSpec_nil c6ss 2 3)
      (by decide) (by simp)
    exact h
  have h2 : decrypt 5 c6S1 (hdrAt 2 513) (ctAt c6ss 2 3 c6ms 513) =
      (c6S2, .ok ("m")) := by
    have hl : alookup (2, 513) c6S1.MKSKIPPED = none := by
      rw [hcache1.2, if_neg (fun hc => by
        obtain ⟨_, hlt, _⟩ := hc
        rw [show nrOf [256] = 257 from rfl] at hlt
        omega)]
    have hstep : decrypt 5 c6S1 (hdrAt 2 513) (ctAt c6ss 2 3 c6ms 513) =
        decryptTail c6S1 (hdrAt 2 513) (ctAt c6ss 2 3 c6ms 513) := by
      simp only [decrypt, hdrAt, b642ab]
      rw [hl]
      rw [show c6S1.DHr = some 2 from rfl, if_pos rfl]
    rw [hstep]
    rw [decryptTail_spec c6ss 2 3 c6ms [256] c6S1 513 rfl rfl hcache1
      (by decide) (by decide)]
    rfl
  refine ⟨?_, ?_, ?_, by decide⟩
  · have hunfold : processList 5 (initBob c6ss 3) (deliveriesOf c6ss 2 3 c6ms [256, 513]) =
        ((processList 5 (decrypt 5 (initBob c6ss 3) (hdrAt 2 256) (ctAt c6ss 2 3 c6ms 256)).1
            [(hdrAt 2 513, ctAt c6ss 2 3 c6ms 513)]).1,
          (decrypt 5 (initBob c6ss 3) (hdrAt 2 256) (ctAt c6ss 2 3 c6ms 256)).2 ::
            (processList 5 (decrypt 5 (initBob c6ss 3) (hdrAt 2 256) (ctAt c6ss 2 3 c6ms 256)).1
              [(hdrAt 2 513, ctAt c6ss 2 3 c6ms 513)]).2) := rfl
    rw [hunfold]
    simp only [h1]
    have hunfold2 : processList 5 c6S1 [(hdrAt 2 513, ctAt c6ss 2 3 c6ms 513)] =
        ((processList 5 (decrypt 5 c6S1 (hdrAt 2 513) (ctAt c6ss 2 3 c6ms 513)).1 []).1,
          (decrypt 5 c6S1 (hdrAt 2 513) (ctAt c6ss 2 3 c6ms 513)).2 ::
            (processList 5 (decrypt 5 c6S1 (hdrAt 2 513) (ctAt c6ss 2 3 c6ms 513)).1 []).2) := rfl
    rw [hunfold2]
    simp only [h2]
    rfl
  · show (c6S1.MKSKIPPED ++ ((List.range' 257 256).map fun t => ((2, t), mkAt c6ss 2 3 t))).length = 512
    rw [List.length_append]
    rw [show c6S1.MKSKIPPED = [] ++ ((List.range' 0 256).map fun t => ((2, t), mkAt c6ss 2 3 t)) from rfl]
    simp [List.length_range']
  · intro e he
    rw [show c6S2.MKSKIPPED =
        ([] ++ ((List.range' 0 256).map fun t => ((2, t), mkAt c6ss 2 3 t))) ++
          ((List.range' 257 256).map fun t => ((2, t), mkAt c6ss 2 3 t)) from rfl] at he
    simp only [List.nil_append, List.mem_append, List.mem_map] at he
    rcases he with ⟨t, _, rfl⟩ | ⟨t, _, rfl⟩ <;> rfl

theorem aset_length_le (k : Nat × Nat) (v : B) (m : List SkipEntry) :
    (aset k v m).length ≤ m.length + 1 := by
  induction m with
  | nil => simp [aset]
  | cons e es ih =>
      by_cases h : e.1 = k <;> simp [aset, h] <;> omega

theorem skipChain_length_le (dh : Nat) (g : Nat) :
    ∀ (ck : B) (nr : Nat) (cache : List SkipEntry),
      (skipChain dh g ck nr cache).MKSKIPPED.length ≤ cache.length + g := by
  induction g with
  | zero => intro ck nr cache; simp [skipChain]
  | succ g ih =>
      intro ck nr cache
      rw [skipChain]
      calc (skipChain dh g (kdfCK ck).chainKey (nr + 1)
              (aset (dh, nr) (kdfCK ck).messageKey cache)).MKSKIPPED.length
          ≤ (aset (dh, nr) (kdfCK ck).messageKey cache).length + g := ih _ _ _
        _ ≤ cache.length + 1 + g := by
            have := aset_length_le (dh, nr) (kdfCK ck).messageKey cache
            omega
        _ = cache.length + (g + 1) := by omega

/-- C6 (amended): the bound `MAX_SKIP` enforces is per call, not per chain:
a successful `skipMessageKeys` call on a state with a receiving chain never
skips more than 256 positions ahead of the current `Nr` (`until − Nr ≤ 256`)
and caches at most `until − Nr ≤ 256` new keys per call; and `encrypt` never
touches the cache. Across several gapped deliveries the per-chain cache and
the cumulative skips can exceed 256 (see the counterexample). -/
theorem skipMessageKeys_per_call_bound (dh untl : Nat) (s s' : RatchetState) (ck : B)
    (hck : s.CKr = some ck) (h : skipMessageKeys dh untl s = .ok s') :
    untl ≤ s.Nr + MAX_SKIP ∧
    untl - s.Nr ≤ MAX_SKIP ∧
    s'.MKSKIPPED.length ≤ s.MKSKIPPED.length + (untl - s.Nr) ∧
    (∀ (st : RatchetState) (p : String) (st2 : RatchetState) (hd : MessageHeader) (c : B),
      encrypt st p = .ok (st2, hd, c) → st2.MKSKIPPED = st.MKSKIPPED) := by
  rw [skipMessageKeys, hck] at h
  have h2 : (if s.Nr + MAX_SKIP < untl then (Except.error RatchetError.tooManySkipped : Except RatchetError RatchetState)
      else Except.ok { s with
        CKr := some (skipChain dh (untl - s.Nr) ck s.Nr s.MKSKIPPED).CKr,
        Nr := (skipChain dh (untl - s.Nr) ck s.Nr s.MKSKIPPED).Nr,
        MKSKIPPED := (skipChain dh (untl - s.Nr) ck s.Nr s.MKSKIPPED).MKSKIPPED }) =
      Except.ok s' := h
  by_cases hlt : s.Nr + MAX_SKIP < untl
  · rw [if_pos hlt] at h2
    cases h2
  · rw [if_neg hlt] at h2
    injection h2 with h3
    refine ⟨by omega, by omega, ?_, ?_⟩
    · rw [← h3]
      exact skipChain_length_le dh (untl - s.Nr) ck s.Nr s.MKSKIPPED
    · intro st p st2 hd c henc
      rw [encrypt] at henc
      cases hCKs : st.CKs with
      | none => rw [hCKs] at henc; cases henc
      | some cks =>
          rw [hCKs] at henc
          cases hDHs : st.DHs with
          | none => rw [hDHs] at henc; cases henc
          | some dhs =>
              rw [hDHs] at henc
              cases henc
              rfl

/-- C6 fixture: a small state for the per-call-bound witness. -/
def c6callState : RatchetState :=
  { DHs := some 1, DHr := some 1, RK := B.raw [], CKs := none,
    CKr := some (B.raw [4]), Ns := 0, Nr := 0, PN := 0, MKSKIPPED := [] }

/-- C6 fixture: the state after `skipMessageKeys 1 3` on `c6callState`. -/
def c6after : RatchetState :=
  match skipMessageKeys 1 3 c6callState with
  | .ok s' => s'
  | .error _ => c6callState

/-- C6 fixture: a state with a sending chain, for the encrypt conjunct. -/
def c6encState : RatchetState :=
  { DHs := some 1, DHr := none, RK := B.raw [], CKs := some (B.raw [2]),
    CKr := none, Ns := 0, Nr := 0, PN := 0, MKSKIPPED := [] }

/-- C6 fixture: the output of `encrypt` on `c6encState`. -/
def c6encOut : RatchetState × MessageHeader × B :=
  match encrypt c6encState ("p") with
  | .ok r => r
  | .error _ => (c6encState, { dh := 0, pn := 0, n := 0 }, B.raw [])

theorem skipMessageKeys_per_call_bound_witness :
    3 ≤ c6callState.Nr + MAX_SKIP ∧
    3 - c6callState.Nr ≤ MAX_SKIP ∧
    c6after.MKSKIPPED.length ≤ c6callState.MKSKIPPED.length + (3 - c6callState.Nr) ∧
    c6encOut.1.MKSKIPPED = c6encState.MKSKIPPED :=
  ⟨(skipMessageKeys_per_call_bound 1 3 c6callState c6after (B.raw [4]) rfl rfl).1,
   (skipMessageKeys_per_call_bound 1 3 c6callState c6after (B.raw [4]) rfl rfl).2.1,
   (skipMessageKeys_per_call_bound 1 3 c6callState c6after (B.raw [4]) rfl rfl).2.2.1,
   (skipMessageKeys_per_call_bound 1 3 c6callState c6after (B.raw [4]) rfl rfl).2.2.2
     c6encState ("p") c6encOut.1 c6encOut.2.1 c6encOut.2.2 rfl⟩

end SignalSpec
